import Mathlib

/-!
A shallow embedding, in Lean, of the Malis tree-walking interpreter
(a Rust implementation of a Lox-like language), built to check the
natural-language specification of the repository against its code.

Conventions used throughout:
- every definition carries a doc comment naming the source item it embeds
  (file and lines);
- the Rust f32 numeric payloads are represented by rationals; every numeric
  literal and operation exercised by the theorems below is exactly
  representable in f32, where f32 arithmetic, equality and ordering agree
  with the rational ones;
- interior mutability (Rc, RefCell, OnceCell) is modelled by explicit state
  passing over immutable trees;
- panics in the source are modelled as distinguished error values, and
  functions whose Rust originals loop on input they consume are given a
  fuel parameter (an embedding artifact; the theorems always supply ample
  fuel);
- writes to stdout made while scanning or parsing are irrelevant to the
  claims and are elided.

The repository snapshot mixes revisions: src/token.rs lacks the
TokenType::Ident and TokenType::Eof unit variants and the
Comparison::Bang variant that src/scanner.rs and src/parser.rs use, and
identifiers are emitted as Literal::LitString while string literals are
emitted as Literal::Ident. The token model below is the union of the two
revisions so that each subsystem can be embedded as written; the one
theorem that feeds scanner output to the parser (C1) involves only token
kinds common to both revisions, so the skew does not affect any verdict.
-/

namespace Malis

/-- Single-character token kinds, from src/token.rs (enum SingleChar,
lines 66-82 of the union revision: includes Colon, Star, Bang, Question). -/
inductive SingleChar where
  | leftParen
  | rightParen
  | leftBrace
  | rightBrace
  | comma
  | dot
  | minus
  | plus
  | semiColon
  | colon
  | slash
  | star
  | bang
  | question
  | equal
deriving DecidableEq, Repr

/-- Comparison token kinds, from src/token.rs (enum Comparison, lines
84-93). The bang variant is absent from src/token.rs but is constructed by
src/scanner.rs line 139; it is included here so the scanner can be embedded
as written. Likewise the equal variant of SingleChar above is what
src/parser.rs matches for assignment while this Comparison enum carries the
equal the scanner emits; no theorem crosses that skew. -/
inductive Comparison where
  | bang
  | bangEqual
  | equal
  | equalEqual
  | greater
  | greaterEqual
  | less
  | lessEqual
deriving DecidableEq, Repr

/-- Literal token payloads, from src/token.rs (enum Literal, lines 95-101).
The Number payload is an f32 in the source; it is represented by a rational
(see the header note). Note the source scanner stores string literals under
the ident constructor and identifiers under litString. -/
inductive LiteralTok where
  | ident (s : String)
  | litString (s : String)
  | number (q : ℚ)
deriving DecidableEq, Repr

/-- Keyword token kinds, from src/token.rs (enum Keyword, lines 103-120).
Constructor names carry a k prefix because most of the words are Lean
keywords. -/
inductive Keyword where
  | kAnd
  | kOr
  | kNot
  | kClass
  | kFun
  | kIf
  | kElse
  | kWhile
  | kFor
  | kTrue
  | kFalse
  | kNil
  | kVar
  | kPrint
  | kReturn
deriving DecidableEq, Repr

/-- Token kinds, from src/token.rs (enum TokenType, lines 56-64), extended
with the ident and eof unit variants that src/parser.rs matches on
(TokenType::Ident, TokenType::Eof); see the header note on revision skew. -/
inductive TokenType where
  | singleChar (c : SingleChar)
  | comparison (c : Comparison)
  | literal (l : LiteralTok)
  | keyword (k : Keyword)
  | ident
  | ignored
  | eof
deriving DecidableEq, Repr

/-- A source token, from src/token.rs (struct Token, lines 6-14). The
OnceCell wrappers are elided (the cells are written exactly once, at
construction). The extra id field models the stable node address that the
resolver and interpreter use as a use-site key (the Rust code formats the
address of the Token allocation with a p format specifier); it does not
take part in token equality in the source, and no embedded function except
the resolution keying reads it. -/
structure Token where
  t_type : TokenType
  lexeme : String
  line : Nat
  id : Nat := 0
deriving DecidableEq, Repr

/-- Scanner error values, from src/error.rs (enum ScannerError, lines
62-69). The io and float-parse payloads are elided. -/
inductive ScannerError where
  | failedToIndexSlice
  | stdIoError
  | parseFloatError
  | unexpectedCharacter (c : Char)
  | unterminatedString
deriving DecidableEq, Repr

/-- The scanner state, from src/scanner.rs (struct Scanner, lines 11-20).
The data field holds the characters of the input; offsets index characters,
which coincides with the byte offsets the source uses because every input
in this file is ASCII. The keyword map is a fixed function (keywords
below). -/
structure Scanner where
  data : List Char
  offset : Nat
  line : Nat
deriving Repr

/-- The reserved-word map built in Scanner::new, src/scanner.rs lines
27-43. Note there are no entries for self and super in this revision. -/
def keywords (s : String) : Option Keyword :=
  List.lookup s
    [("and", .kAnd), ("or", .kOr), ("not", .kNot), ("class", .kClass),
     ("fun", .kFun), ("if", .kIf), ("else", .kElse), ("while", .kWhile),
     ("for", .kFor), ("true", .kTrue), ("false", .kFalse), ("nil", .kNil),
     ("var", .kVar), ("print", .kPrint), ("return", .kReturn)]

/-- The opening-brace character, written via its code point to keep brace
characters out of the literals of this file. -/
def lbraceChar : Char := Char.ofNat 123

/-- The closing-brace character, written via its code point. -/
def rbraceChar : Char := Char.ofNat 125

/-- Scanner::create_token, src/scanner.rs lines 368-377: slice the source
text from start to the current offset as the lexeme. Rust slicing with an
invalid range yields None, hence FailedToIndexSlice. -/
def createToken (s : Scanner) (t_type : TokenType) (start : Nat) :
    Except ScannerError Token :=
  if start ≤ s.offset ∧ s.offset ≤ s.data.length then
    .ok { t_type := t_type,
          lexeme := String.mk ((s.data.drop start).take (s.offset - start)),
          line := s.line }
  else
    .error .failedToIndexSlice

/-- Scanner::match_next, src/scanner.rs lines 235-246: peek the next
character; when it equals the expected one, consume it and report true. -/
def matchNext (expected : Char) (chars : List (Nat × Char)) :
    Bool × List (Nat × Char) :=
  match chars with
  | (_, ch) :: rest => if ch = expected then (true, rest) else (false, chars)
  | [] => (false, chars)

/-- The line-comment loop of Scanner::scan_token, src/scanner.rs lines
173-179: consume characters up to but excluding the next newline, tracking
the offset. Returns the final offset and the remaining characters. -/
def skipLineComment (offset : Nat) (chars : List (Nat × Char)) :
    Nat × List (Nat × Char) :=
  match chars with
  | [] => (offset, [])
  | (idx, ch) :: rest =>
      if ch ≠ '\n' then skipLineComment idx rest else (offset, chars)

/-- The block-comment loop of Scanner::scan_token, src/scanner.rs lines
184-196: consume characters until just after the first star-slash pair
(no nesting), tracking the offset. -/
def skipBlockComment (offset : Nat) (chars : List (Nat × Char)) :
    Nat × List (Nat × Char) :=
  match chars with
  | [] => (offset, [])
  | (idx, ch) :: rest =>
      if ch = '*' then
        match rest with
        | (idx2, ch2) :: rest2 =>
            if ch2 = '/' then (idx2, rest2) else skipBlockComment idx rest
        | [] => skipBlockComment idx rest
      else skipBlockComment idx rest

/-- The scanning loop of Scanner::parse_string, src/scanner.rs lines
259-279: walk to the closing double quote, bumping the line counter at
newlines; the unterminated check compares the offset (always at most
data.length - 1 here) with data.length, mirroring the source condition.
Returns offset, line and the remaining characters. -/
def parseStringLoop (dataLen : Nat) (offset line : Nat)
    (chars : List (Nat × Char)) :
    Except ScannerError (Nat × Nat × List (Nat × Char)) :=
  match chars with
  | [] => .ok (offset, line, [])
  | (idx, ch) :: rest =>
      let line' := if ch = '\n' then line + 1 else line
      if ch = '\"' then .ok (idx + 1, line', rest)
      else if idx = dataLen then .error .unterminatedString
      else parseStringLoop dataLen idx line' rest

/-- Scanner::parse_string, src/scanner.rs lines 253-288. The value is the
text between the quotes; note the source wraps it in Literal::Ident. -/
def parseString (s : Scanner) (start : Nat) (chars : List (Nat × Char)) :
    (Except ScannerError Token) × Scanner × List (Nat × Char) :=
  match parseStringLoop s.data.length s.offset s.line chars with
  | .error e => (.error e, s, chars)
  | .ok (offset', line', rest) =>
      let s' := { s with offset := offset', line := line' }
      let value := String.mk ((s'.data.drop (start + 1)).take (s'.offset - 1 - (start + 1)))
      if start + 1 ≤ s'.offset - 1 ∧ s'.offset - 1 ≤ s'.data.length then
        (createToken s' (.literal (.ident value)) start, s', rest)
      else
        (.error .failedToIndexSlice, s', rest)

/-- The fractional-part loop of Scanner::parse_number, src/scanner.rs lines
312-320: consume digits, tracking the offset; a non-digit breaks out of the
whole number scan. -/
def parseNumFracLoop (offset : Nat) (chars : List (Nat × Char)) :
    Nat × List (Nat × Char) :=
  match chars with
  | [] => (offset, [])
  | (idx2, c2) :: rest =>
      if c2.isDigit then parseNumFracLoop idx2 rest else (offset, chars)

/-- The integer-part loop of Scanner::parse_number, src/scanner.rs lines
301-324: consume digits; a dot switches to the fractional loop (whose exit
also exits this loop, mirroring the labelled break in the source). -/
def parseNumIntLoop (offset : Nat) (chars : List (Nat × Char)) :
    Nat × List (Nat × Char) :=
  match chars with
  | [] => (offset, [])
  | (idx, c) :: rest =>
      if c.isDigit then parseNumIntLoop idx rest
      else if c = '.' then parseNumFracLoop idx rest
      else (offset, chars)

/-- The rational value of a digit string (most significant first). -/
def digitsVal (cs : List Char) : ℚ :=
  ((cs.foldl (fun n c => n * 10 + (c.toNat - 48)) 0 : ℕ) : ℚ)

/-- Models str::parse::<f32> as used by Scanner::parse_number
(src/scanner.rs line 330), restricted to the decimal shapes the number
scanner produces: digits, optionally followed by a dot and further digits
(a trailing dot is accepted, as f32 parsing accepts it). The f32 rounding
of the decimal value is elided: every literal appearing in the theorems is
exactly representable. -/
def decimalToRat (cs : List Char) : Option ℚ :=
  match cs.splitOn '.' with
  | [ip] =>
      if ip ≠ [] ∧ ip.all Char.isDigit then some (digitsVal ip) else none
  | [ip, fp] =>
      if ip ≠ [] ∧ ip.all Char.isDigit ∧ fp.all Char.isDigit then
        some (digitsVal ip + digitsVal fp / (10 ^ fp.length : ℕ))
      else none
  | _ => none

/-- Scanner::parse_number, src/scanner.rs lines 296-332. -/
def parseNumber (s : Scanner) (start : Nat) (chars : List (Nat × Char)) :
    (Except ScannerError Token) × Scanner × List (Nat × Char) :=
  let (offset', rest) := parseNumIntLoop s.offset chars
  let s' := { s with offset := offset' + 1 }
  if start ≤ s'.offset ∧ s'.offset ≤ s'.data.length then
    match decimalToRat ((s'.data.drop start).take (s'.offset - start)) with
    | some q => (createToken s' (.literal (.number q)) start, s', rest)
    | none => (.error .parseFloatError, s', rest)
  else
    (.error .failedToIndexSlice, s', rest)

/-- The identifier loop of Scanner::parse_ident, src/scanner.rs lines
346-354: consume ASCII alphanumerics and underscores; on the first other
character bump the offset past the last consumed character and stop (note
the source does not bump the offset when the loop ends by exhausting the
input). -/
def parseIdentLoop (offset : Nat) (chars : List (Nat × Char)) :
    Nat × List (Nat × Char) :=
  match chars with
  | [] => (offset, [])
  | (idx, c) :: rest =>
      if c.isAlphanum ∨ c = '_' then parseIdentLoop idx rest
      else (offset + 1, chars)

/-- Scanner::parse_ident, src/scanner.rs lines 341-366. A lexeme found in
the keyword map becomes a keyword token; anything else becomes
Literal::LitString (the identifier payload of this revision). -/
def parseIdent (s : Scanner) (start : Nat) (chars : List (Nat × Char)) :
    (Except ScannerError Token) × Scanner × List (Nat × Char) :=
  let (offset', rest) := parseIdentLoop s.offset chars
  let s' := { s with offset := offset' }
  if start ≤ s'.offset ∧ s'.offset ≤ s'.data.length then
    let value := String.mk ((s'.data.drop start).take (s'.offset - start))
    let t_type : TokenType :=
      match keywords value with
      | some k => .keyword k
      | none => .literal (.litString value)
    (createToken s' t_type start, s', rest)
  else
    (.error .failedToIndexSlice, s', rest)

/-- Scanner::scan_token, src/scanner.rs lines 86-233: classify one
character, consuming lookahead from the character stream as needed. The
branches appear in source order; note the star branch (source lines
129-132) constructs a SemiColon token type. The stdout write performed in
the unexpected-character branch is elided. -/
def scanToken (s : Scanner) (ch : Char) (start : Nat)
    (chars : List (Nat × Char)) :
    (Except ScannerError Token) × Scanner × List (Nat × Char) :=
  if ch = '(' then
    let s := { s with offset := s.offset + 1 }
    (createToken s (.singleChar .leftParen) start, s, chars)
  else if ch = ')' then
    let s := { s with offset := s.offset + 1 }
    (createToken s (.singleChar .rightParen) start, s, chars)
  else if ch = lbraceChar then
    let s := { s with offset := s.offset + 1 }
    (createToken s (.singleChar .leftBrace) start, s, chars)
  else if ch = rbraceChar then
    let s := { s with offset := s.offset + 1 }
    (createToken s (.singleChar .rightBrace) start, s, chars)
  else if ch = ',' then
    let s := { s with offset := s.offset + 1 }
    (createToken s (.singleChar .comma) start, s, chars)
  else if ch = '.' then
    let s := { s with offset := s.offset + 1 }
    (createToken s (.singleChar .dot) start, s, chars)
  else if ch = '-' then
    let s := { s with offset := s.offset + 1 }
    (createToken s (.singleChar .minus) start, s, chars)
  else if ch = '+' then
    let s := { s with offset := s.offset + 1 }
    (createToken s (.singleChar .plus) start, s, chars)
  else if ch = ';' then
    let s := { s with offset := s.offset + 1 }
    (createToken s (.singleChar .semiColon) start, s, chars)
  else if ch = '*' then
    let s := { s with offset := s.offset + 1 }
    (createToken s (.singleChar .semiColon) start, s, chars)
  else if ch = '!' then
    match matchNext '=' chars with
    | (true, rest) =>
        let s := { s with offset := s.offset + 2 }
        (createToken s (.comparison .bangEqual) start, s, rest)
    | (false, rest) =>
        let s := { s with offset := s.offset + 1 }
        (createToken s (.comparison .bang) start, s, rest)
  else if ch = '=' then
    match matchNext '=' chars with
    | (true, rest) =>
        let s := { s with offset := s.offset + 2 }
        (createToken s (.comparison .equalEqual) start, s, rest)
    | (false, rest) =>
        let s := { s with offset := s.offset + 1 }
        (createToken s (.comparison .equal) start, s, rest)
  else if ch = '<' then
    match matchNext '=' chars with
    | (true, rest) =>
        let s := { s with offset := s.offset + 2 }
        (createToken s (.comparison .lessEqual) start, s, rest)
    | (false, rest) =>
        let s := { s with offset := s.offset + 1 }
        (createToken s (.comparison .less) start, s, rest)
  else if ch = '>' then
    match matchNext '=' chars with
    | (true, rest) =>
        let s := { s with offset := s.offset + 2 }
        (createToken s (.comparison .greaterEqual) start, s, rest)
    | (false, rest) =>
        let s := { s with offset := s.offset + 1 }
        (createToken s (.comparison .greater) start, s, rest)
  else if ch = '/' then
    match matchNext '/' chars with
    | (true, rest) =>
        let (offset', rest') := skipLineComment s.offset rest
        let s := { s with offset := offset' }
        (createToken s .ignored start, s, rest')
    | (false, _) =>
        match matchNext '*' chars with
        | (true, rest) =>
            let (offset', rest') := skipBlockComment s.offset rest
            let s := { s with offset := offset' }
            (createToken s .ignored start, s, rest')
        | (false, rest) =>
            (createToken s (.singleChar .slash) start, s, rest)
  else if ch = ' ' ∨ ch = '\r' ∨ ch = '\t' then
    (createToken s .ignored start, s, chars)
  else if ch = '\n' then
    let s := { s with line := s.line + 1 }
    (createToken s .ignored start, s, chars)
  else if ch = '\"' then
    parseString s start chars
  else if ch.isDigit then
    parseNumber s start chars
  else if ch.isAlpha ∨ ch = '_' then
    parseIdent s start chars
  else
    (.error (.unexpectedCharacter ch), s, chars)

/-- The loop of Scanner::scan_tokens, src/scanner.rs lines 60-79: pull one
character, set the offset and lexeme start to its index, scan one token,
drop Ignored tokens, and collect errors into a separate list. The fuel
argument is an embedding artifact bounding the number of iterations; the
character consumed at the head of each iteration guarantees fuel equal to
the input length is ample. -/
def scanTokensLoop (fuel : Nat) (s : Scanner) (chars : List (Nat × Char))
    (tokens : List Token) (errors : List ScannerError) :
    List Token × List ScannerError :=
  match fuel, chars with
  | 0, _ => (tokens.reverse, errors.reverse)
  | _ + 1, [] => (tokens.reverse, errors.reverse)
  | f + 1, (idx, ch) :: rest =>
      let s := { s with offset := idx }
      match scanToken s ch idx rest with
      | (.ok tok, s', rest') =>
          if tok.t_type = .ignored then scanTokensLoop f s' rest' tokens errors
          else scanTokensLoop f s' rest' (tok :: tokens) errors
      | (.error e, s', rest') =>
          scanTokensLoop f s' rest' tokens (e :: errors)

/-- The body of Scanner::scan_tokens, src/scanner.rs lines 53-82, exposed
as the pair of the token list and the error list that the loop
accumulates. -/
def scanTokensFull (input : String) : List Token × List ScannerError :=
  let data := input.data
  let s : Scanner := { data := data, offset := 0, line := 1 }
  scanTokensLoop data.length s data.enum [] []

/-- Scanner::scan_tokens, src/scanner.rs lines 53-82. The function
collects scanning errors into error_list, but line 81 returns
Ok(token_list) unconditionally, so the error list never reaches the
caller and no Eof token is appended. -/
def scanTokens (input : String) : Except (List ScannerError) (List Token) :=
  .ok (scanTokensFull input).1

/-- Ast error values, from src/error.rs (enum AstError, lines 99-102). -/
inductive AstError where
  | notALiteral
deriving DecidableEq, Repr

/-- Literal expression payloads, from src/ast.rs (enum LiteralType, lines
347-354). The source stores the number as the four little-endian bytes of
an f32; the byte encoding is elided and the numeric value kept (the
encoding is a bijection on f32 payloads). -/
inductive LiteralType where
  | number (q : ℚ)
  | litString (s : String)
  | litTrue
  | litFalse
  | litNil
deriving DecidableEq, Repr

/-- Expression nodes, from src/ast.rs (enum Expr, lines 172-191, together
with the payload structs Unary, Binary, Group, Literal, Ternary, Logical,
Call, GetExpr, SetExpr, SuperExpr at lines 219-445). Each payload struct is
flattened into the fields of its constructor, in source field order. -/
inductive Expr where
  | unary (operator : Token) (right : Expr)
  | binary (left : Expr) (operator : Token) (right : Expr)
  | group (expr : Expr)
  | literal (l_type : LiteralType)
  | ternary (first : Expr) (first_operator : Token) (second : Expr)
      (second_operator : Token) (third : Expr)
  | var (name : Token)
  | assign (name : Token) (value : Expr)
  | logical (left : Expr) (operator : Token) (right : Expr)
  | call (callee : Expr) (paren : Token) (arguments : List Expr)
  | get (name : Token) (object : Expr)
  | set (object : Expr) (name : Token) (value : Expr)
  | classSelf (keyword : Token)
  | superExpr (keyword : Token) (method : Token)

/-- Literal::new, src/ast.rs lines 321-338: read a literal payload off a
token. The ident payload case falls to NotALiteral (the revision of
src/ast.rs matches only the Number and LitString literal payloads). -/
def LiteralType.ofToken (t : Token) : Except AstError LiteralType :=
  match t.t_type with
  | .literal (.number v) => .ok (.number v)
  | .literal (.litString v) => .ok (.litString v)
  | .literal (.ident _) => .error .notALiteral
  | .keyword .kTrue => .ok .litTrue
  | .keyword .kFalse => .ok .litFalse
  | .keyword .kNil => .ok .litNil
  | _ => .error .notALiteral

/-- Statement nodes, from src/ast.rs (enum Stmt, lines 7-18, together with
the payload structs VarStmt, IfStmt, WhileStmt, ReturnStmt,
FunctionDeclaration, ClassDeclaration at lines 42-170). Payload structs
are flattened into constructor fields in source field order. -/
inductive Stmt where
  | expr (e : Expr)
  | print (e : Expr)
  | var (identifier : Token) (expr : Option Expr)
  | block (stmts : List Stmt)
  | ifS (condition : Expr) (then_branch : Stmt) (else_branch : Option Stmt)
  | whileS (condition : Expr) (stmt : Stmt)
  | function (name : Token) (parameters : List Token) (body : List Stmt)
  | ret (keyword : Token) (expr : Option Expr)
  | classS (name : Token) (superclass : Option Token) (methods : List Stmt)

/-- Function declarations as a standalone value, from src/ast.rs (struct
FunctionDeclaration, lines 130-144); carried by user-function objects. -/
structure FunctionDeclaration where
  name : Token
  parameters : List Token
  body : List Stmt

/-- FunctionKind, src/ast.rs lines 146-150 (the parser threads it but never
reads it). -/
inductive FunctionKind where
  | free
  | method
deriving DecidableEq, Repr

/-- Parser error values, from src/error.rs (enum ParserError, lines
104-116). The outOfFuel variant is an embedding artifact marking fuel
exhaustion of the recursion bound; the source recursion is unbounded and
every theorem supplies ample fuel, so no theorem ever meets it. -/
inductive ParserError where
  | invalidIdx (n : Nat)
  | negativeIdx
  | noTokenType
  | missingClosingParen
  | missingColon
  | noPrimaryProduction
  | noErrorProduction
  | tooManyFuncArg
  | panicMode (msg : String) (t : Token)
  | invalidIfStmt (msg : String)
  | outOfFuel
deriving DecidableEq, Repr

/-- FUNCTION_ARG_LIMIT, src/parser.rs line 10. -/
def FUNCTION_ARG_LIMIT : Nat := 255

/-- The parser state, from src/parser.rs (struct Parser, lines 13-17). -/
structure PState where
  tokens : List Token
  current : Nat
deriving Repr

namespace Parser

/-- The parser computations: mutable access to the Parser struct plus a
ParserError channel, exactly the shape of the Rust methods taking mut self
and returning Result. EStateM keeps the state reached at the moment of an
error, as the mutated Rust parser does. -/
abbrev M (α : Type) : Type := EStateM ParserError PState α

/-- Parser::peek, src/parser.rs lines 824-828. -/
def peek : M Token := do
  let p ← get
  match p.tokens.get? p.current with
  | some t => pure t
  | none => throw (.invalidIdx p.current)

/-- Parser::peek_type, src/parser.rs lines 831-833. -/
def peekType : M TokenType := do
  pure (← peek).t_type

/-- Parser::previous, src/parser.rs lines 836-844. -/
def previous : M Token := do
  let p ← get
  if p.current ≠ 0 then
    match p.tokens.get? (p.current - 1) with
    | some t => pure t
    | none => throw (.invalidIdx (p.current - 1))
  else throw .negativeIdx

/-- Parser::tokens_left, src/parser.rs lines 817-821. -/
def tokensLeft : M Bool := do
  pure ((← peek).t_type ≠ .eof)

/-- Parser::advance, src/parser.rs lines 847-852. -/
def advance : M Token := do
  if (← tokensLeft) then
    modify (fun p => { p with current := p.current + 1 })
  previous

/-- Parser::check, src/parser.rs lines 855-862. -/
def check (t_type : TokenType) : M Bool := do
  if (← tokensLeft) then
    pure ((← peek).t_type = t_type)
  else pure false

/-- Parser::any, src/parser.rs lines 799-806: whether the current token
matches any of the given token types. -/
def any (t_types : List TokenType) : M Bool := do
  match t_types with
  | [] => pure false
  | tt :: rest => do
      if (← check tt) then pure true else any rest

/-- Parser::consume, src/parser.rs lines 808-814. -/
def consume (t_type : TokenType) (message : String) : M Token := do
  if (← any [t_type]) then advance
  else throw (.panicMode message (← peek))

/-- Parser::synchronize inner loop, src/parser.rs lines 872-899. -/
def synchronizeLoop : Nat → M Unit
  | 0 => throw .outOfFuel
  | f + 1 => do
      if (← tokensLeft) then
        if (← check (.singleChar .semiColon)) then
          let _ ← advance
          pure ()
        else
          match (← peekType) with
          | .keyword .kClass | .keyword .kFun | .keyword .kVar
          | .keyword .kFor | .keyword .kIf | .keyword .kWhile
          | .keyword .kPrint | .keyword .kReturn => pure ()
          | _ => do
              let _ ← advance
              synchronizeLoop f
      else pure ()

/-- Parser::synchronize, src/parser.rs lines 869-901. -/
def synchronize (f : Nat) : M Unit := do
  let _ ← advance
  synchronizeLoop f

mutual

/-- Parser::separator, src/parser.rs lines 442-459 (the comma sequencing
production). The while loop is separatorLoop. -/
def separator : Nat → M Expr
  | 0 => throw .outOfFuel
  | f + 1 => do
      let expr ← assignment f
      separatorLoop f expr

/-- The while loop of Parser::separator, src/parser.rs lines 450-457. -/
def separatorLoop : Nat → Expr → M Expr
  | 0, _ => throw .outOfFuel
  | f + 1, expr => do
      if (← any [.singleChar .comma]) then
        let operator ← advance
        let right_expr ← assignment f
        separatorLoop f (.binary expr operator right_expr)
      else pure expr

/-- Parser::assignment, src/parser.rs lines 461-484. -/
def assignment : Nat → M Expr
  | 0 => throw .outOfFuel
  | f + 1 => do
      let expr ← ternary f
      if (← any [.singleChar .equal]) then
        let equals ← advance
        let value ← assignment f
        match expr with
        | .var v => pure (.assign v value)
        | _ => throw (.panicMode "Invalid assignment target" equals)
      else pure expr

/-- Parser::ternary, src/parser.rs lines 486-515. The while loop is
ternaryLoop; note it folds each further question mark around the
accumulated expression. -/
def ternary : Nat → M Expr
  | 0 => throw .outOfFuel
  | f + 1 => do
      let expr ← logicalOr f
      ternaryLoop f expr

/-- The while loop of Parser::ternary, src/parser.rs lines 494-513. -/
def ternaryLoop : Nat → Expr → M Expr
  | 0, _ => throw .outOfFuel
  | f + 1, expr => do
      if (← any [.singleChar .question]) then
        let operator1 ← advance
        let variant1 ← logicalOr f
        try
          let _ ← consume (.singleChar .colon) "Expect ':' after expression"
          let operator2 ← previous
          let variant2 ← logicalOr f
          ternaryLoop f (.ternary expr operator1 variant1 operator2 variant2)
        catch _ => throw .missingColon
      else pure expr

/-- Parser::logical_or, src/parser.rs lines 517-533. -/
def logicalOr : Nat → M Expr
  | 0 => throw .outOfFuel
  | f + 1 => do
      let expr ← logicalAnd f
      logicalOrLoop f expr

/-- The while loop of Parser::logical_or, src/parser.rs lines 523-531. -/
def logicalOrLoop : Nat → Expr → M Expr
  | 0, _ => throw .outOfFuel
  | f + 1, expr => do
      if (← any [.keyword .kOr]) then
        let operator ← advance
        let right ← logicalAnd f
        logicalOrLoop f (.logical expr operator right)
      else pure expr

/-- Parser::logical_and, src/parser.rs lines 535-551. -/
def logicalAnd : Nat → M Expr
  | 0 => throw .outOfFuel
  | f + 1 => do
      let expr ← expression f
      logicalAndLoop f expr

/-- The while loop of Parser::logical_and, src/parser.rs lines 541-548. -/
def logicalAndLoop : Nat → Expr → M Expr
  | 0, _ => throw .outOfFuel
  | f + 1, expr => do
      if (← any [.keyword .kAnd]) then
        let operator ← advance
        let right ← expression f
        logicalAndLoop f (.logical expr operator right)
      else pure expr

/-- Parser::expression, src/parser.rs lines 553-556. -/
def expression : Nat → M Expr
  | 0 => throw .outOfFuel
  | f + 1 => equality f

/-- Parser::equality, src/parser.rs lines 558-577. -/
def equality : Nat → M Expr
  | 0 => throw .outOfFuel
  | f + 1 => do
      let expr ← comparison f
      equalityLoop f expr

/-- The while loop of Parser::equality, src/parser.rs lines 567-574. -/
def equalityLoop : Nat → Expr → M Expr
  | 0, _ => throw .outOfFuel
  | f + 1, expr => do
      if (← any [.comparison .bangEqual, .comparison .equalEqual]) then
        let operator ← advance
        let right_expr ← comparison f
        equalityLoop f (.binary expr operator right_expr)
      else pure expr

/-- Parser::comparison, src/parser.rs lines 579-600. -/
def comparison : Nat → M Expr
  | 0 => throw .outOfFuel
  | f + 1 => do
      let expr ← term f
      comparisonLoop f expr

/-- The while loop of Parser::comparison, src/parser.rs lines 590-597. -/
def comparisonLoop : Nat → Expr → M Expr
  | 0, _ => throw .outOfFuel
  | f + 1, expr => do
      if (← any [.comparison .greater, .comparison .greaterEqual,
                 .comparison .less, .comparison .lessEqual]) then
        let operator ← advance
        let right_expr ← term f
        comparisonLoop f (.binary expr operator right_expr)
      else pure expr

/-- Parser::term, src/parser.rs lines 602-621. -/
def term : Nat → M Expr
  | 0 => throw .outOfFuel
  | f + 1 => do
      let expr ← factor f
      termLoop f expr

/-- The while loop of Parser::term, src/parser.rs lines 611-618. -/
def termLoop : Nat → Expr → M Expr
  | 0, _ => throw .outOfFuel
  | f + 1, expr => do
      if (← any [.singleChar .minus, .singleChar .plus]) then
        let operator ← advance
        let right_expr ← factor f
        termLoop f (.binary expr operator right_expr)
      else pure expr

/-- Parser::factor, src/parser.rs lines 623-642. -/
def factor : Nat → M Expr
  | 0 => throw .outOfFuel
  | f + 1 => do
      let expr ← unary f
      factorLoop f expr

/-- The while loop of Parser::factor, src/parser.rs lines 632-639. -/
def factorLoop : Nat → Expr → M Expr
  | 0, _ => throw .outOfFuel
  | f + 1, expr => do
      if (← any [.singleChar .slash, .singleChar .star]) then
        let operator ← advance
        let right_expr ← unary f
        factorLoop f (.binary expr operator right_expr)
      else pure expr

/-- Parser::unary, src/parser.rs lines 644-661. -/
def unary : Nat → M Expr
  | 0 => throw .outOfFuel
  | f + 1 => do
      if (← any [.singleChar .bang, .singleChar .minus]) then
        let operator ← advance
        let expr ← unary f
        pure (.unary operator expr)
      else call f

/-- Parser::call, src/parser.rs lines 664-679. -/
def call : Nat → M Expr
  | 0 => throw .outOfFuel
  | f + 1 => do
      let call_expr ← primary f
      callLoop f call_expr

/-- The while loop of Parser::call, src/parser.rs lines 671-676. -/
def callLoop : Nat → Expr → M Expr
  | 0, _ => throw .outOfFuel
  | f + 1, call_expr => do
      if (← any [.singleChar .leftParen]) then
        let _ ← advance
        let call_expr ← finishCall f call_expr
        callLoop f call_expr
      else pure call_expr

/-- Parser::finish_call, src/parser.rs lines 681-712. The do-while
argument loop is finishCallLoop. -/
def finishCall : Nat → Expr → M Expr
  | 0, _ => throw .outOfFuel
  | f + 1, callee => do
      let arguments ← (do
        if !(← any [.singleChar .rightParen]) then finishCallLoop f []
        else pure [])
      let paren ← consume (.singleChar .rightParen)
        "Expect ')' after expression"
      pure (.call callee paren arguments)

/-- The do-while argument loop of Parser::finish_call, src/parser.rs lines
689-703: refuse to push a further argument once the accumulated list has
reached FUNCTION_ARG_LIMIT, parse an argument with assignment, and
continue past a comma. -/
def finishCallLoop : Nat → List Expr → M (List Expr)
  | 0, _ => throw .outOfFuel
  | f + 1, arguments => do
      if arguments.length ≥ FUNCTION_ARG_LIMIT then throw .tooManyFuncArg
      let a ← assignment f
      let arguments := arguments ++ [a]
      if (← any [.singleChar .comma]) then
        let _ ← advance
        finishCallLoop f arguments
      else pure arguments

/-- Parser::primary, src/parser.rs lines 714-748. -/
def primary : Nat → M Expr
  | 0 => throw .outOfFuel
  | f + 1 => do
      let t ← peek
      match LiteralType.ofToken t with
      | .ok literal => do
          let _ ← advance
          pure (.literal literal)
      | .error _ => do
          match (← peekType) with
          | .singleChar .leftParen => do
              let _ ← advance
              let expr ← separator f
              try
                let _ ← consume (.singleChar .rightParen)
                  "Expect ')' after expression"
                pure (.group expr)
              catch _ => throw .missingClosingParen
          | .ident => do
              let token ← advance
              pure (.var token)
          | _ => do
              error f
              throw .noPrimaryProduction

/-- Parser::error, src/parser.rs lines 750-795 (the error production for a
stand-alone binary operator). The message the source formats with the ast
printer is replaced by a fixed description; no theorem reads it. -/
def error : Nat → M Unit
  | 0 => throw .outOfFuel
  | f + 1 => do
      if (← any [.singleChar .comma, .comparison .bangEqual,
                 .comparison .equalEqual, .comparison .greater,
                 .comparison .greaterEqual, .comparison .less,
                 .comparison .lessEqual, .singleChar .minus,
                 .singleChar .plus, .singleChar .slash,
                 .singleChar .star]) then
        let operator ← advance
        let _right_expr ← ternary f
        throw (.panicMode "Found binary operator with only right operand"
          operator)
      else pure ()

end

mutual

/-- Parser::parse, src/parser.rs lines 28-36. The while loop is
parseLoop. -/
def parse : Nat → M (List Stmt)
  | 0 => throw .outOfFuel
  | f + 1 => parseLoop f []

/-- The while loop of Parser::parse, src/parser.rs lines 30-34. -/
def parseLoop : Nat → List Stmt → M (List Stmt)
  | 0, _ => throw .outOfFuel
  | f + 1, statements => do
      if (← tokensLeft) then
        match (← declaration f) with
        | some d => parseLoop f (statements ++ [d])
        | none => parseLoop f statements
      else pure statements

/-- Parser::declaration, src/parser.rs lines 39-64: try a variable,
function or other statement; on failure report (print elided), synchronize
and elide the statement. The catch receives the state the failed parse
reached, as the mutated Rust parser does. -/
def declaration : Nat → M (Option Stmt)
  | 0 => throw .outOfFuel
  | f + 1 => do
      try
        let d ← (do
          if (← any [.keyword .kVar]) then
            let _ ← advance
            varDeclaration f
          else if (← any [.keyword .kFun]) then
            let _ ← advance
            functionDeclaration f .free
          else statement f)
        pure (some d)
      catch _ => do
        synchronize f
        pure none

/-- Parser::function_declaration, src/parser.rs lines 68-129. The
parameter do-while loop is fdParamsLoop; the source destructures the block
statement (unreachable otherwise), modelled by parsing the body with
blockStatementList directly. -/
def functionDeclaration : Nat → FunctionKind → M Stmt
  | 0, _ => throw .outOfFuel
  | f + 1, _kind => do
      let name ← consume .ident "Expected identifier as function name"
      let _ ← consume (.singleChar .leftParen)
        "Expect '(' after `fun` identifier"
      let parameters ← (do
        if !(← any [.singleChar .rightParen]) then fdParamsLoop f []
        else pure [])
      let _ ← consume (.singleChar .rightParen) "Expect ')' after expression"
      let _ ← consume (.singleChar .leftBrace)
        "Expect '\x7b' after `fun` to define it's body"
      let body ← blockStatementList f
      pure (Stmt.function name parameters body)

/-- The parameter do-while loop of Parser::function_declaration,
src/parser.rs lines 89-107: refuse a further parameter once the list has
reached FUNCTION_ARG_LIMIT. -/
def fdParamsLoop : Nat → List Token → M (List Token)
  | 0, _ => throw .outOfFuel
  | f + 1, parameters => do
      if parameters.length ≥ FUNCTION_ARG_LIMIT then throw .tooManyFuncArg
      let param ← consume .ident "Expected identifier as function parameter"
      let parameters := parameters ++ [param]
      if (← any [.singleChar .comma]) then
        let _ ← advance
        fdParamsLoop f parameters
      else pure parameters

/-- Parser::var_declaration, src/parser.rs lines 132-154. -/
def varDeclaration : Nat → M Stmt
  | 0 => throw .outOfFuel
  | f + 1 => do
      let var_name ← consume .ident "Expected a variable name"
      let maybe_binded ← (do
        if (← any [.singleChar .equal]) then
          let _ ← advance
          pure (some (← ternary f))
        else pure none)
      let _ ← consume (.singleChar .semiColon) "Expect ';' after expression"
      pure (Stmt.var var_name maybe_binded)

/-- Parser::statement, src/parser.rs lines 157-214. -/
def statement : Nat → M Stmt
  | 0 => throw .outOfFuel
  | f + 1 => do
      if (← any [.keyword .kPrint]) then
        let _ ← advance
        printStatement f
      else if (← any [.keyword .kIf]) then
        let _ ← advance
        ifStatement f
      else if (← any [.keyword .kWhile]) then
        let _ ← advance
        whileStatement f
      else if (← any [.keyword .kFor]) then
        let _ ← advance
        forStatement f
      else if (← any [.keyword .kReturn]) then
        returnStatement f
      else if (← any [.singleChar .leftBrace]) then
        let _ ← advance
        pure (Stmt.block (← blockStatementList f))
      else exprStatement f

/-- Parser::print_statement, src/parser.rs lines 216-223. -/
def printStatement : Nat → M Stmt
  | 0 => throw .outOfFuel
  | f + 1 => do
      let expr ← separator f
      let _ ← consume (.singleChar .semiColon) "Expect ';' after expression"
      pure (Stmt.print expr)

/-- Parser::if_statement, src/parser.rs lines 226-255. -/
def ifStatement : Nat → M Stmt
  | 0 => throw .outOfFuel
  | f + 1 => do
      let _ ← consume (.singleChar .leftParen)
        "Expect '(' after `if` condition"
      let condition ← separator f
      let _ ← consume (.singleChar .rightParen)
        "Expect ')' after `if` condition"
      let then_branch ← statement f
      let else_branch ← (do
        if (← any [.keyword .kElse]) then
          let _ ← advance
          pure (some (← statement f))
        else pure none)
      pure (Stmt.ifS condition then_branch else_branch)

/-- Parser::for_statement, src/parser.rs lines 257-353, including the
desugaring into blocks and a while statement (the debug print of the body
at line 350 is elided). -/
def forStatement : Nat → M Stmt
  | 0 => throw .outOfFuel
  | f + 1 => do
      let _ ← consume (.singleChar .leftParen)
        "Expect '(' after `while` condition"
      let maybe_initialiser ← (do
        if (← any [.singleChar .semiColon]) then
          let _ ← advance
          pure none
        else if (← any [.keyword .kVar]) then
          let _ ← advance
          pure (some (← varDeclaration f))
        else pure (some (← exprStatement f)))
      let maybe_condition ← (do
        if (← any [.singleChar .semiColon]) then pure none
        else pure (some (← separator f)))
      let _ ← consume (.singleChar .semiColon)
        "Expect second ';' after `for` condition"
      let maybe_increment ← (do
        if (← any [.singleChar .rightParen]) then pure none
        else pure (some (← separator f)))
      let _ ← consume (.singleChar .rightParen)
        "Expect ')' after `for` increment"
      let body ← statement f
      let body := match maybe_increment with
        | some increment => Stmt.block [body, Stmt.expr increment]
        | none => body
      let body := match maybe_condition with
        | some condition => Stmt.whileS condition body
        | none => Stmt.whileS (Expr.literal .litTrue) body
      let body := match maybe_initialiser with
        | some initialiser => Stmt.block [initialiser, body]
        | none => body
      pure body

/-- Parser::while_statement, src/parser.rs lines 357-377. -/
def whileStatement : Nat → M Stmt
  | 0 => throw .outOfFuel
  | f + 1 => do
      let _ ← consume (.singleChar .leftParen)
        "Expect '(' after `while` condition"
      let condition ← separator f
      let _ ← consume (.singleChar .rightParen)
        "Expect ')' after `if` condition"
      let stmt ← statement f
      pure (Stmt.whileS condition stmt)

/-- Parser::return_statement, src/parser.rs lines 380-406. -/
def returnStatement : Nat → M Stmt
  | 0 => throw .outOfFuel
  | f + 1 => do
      let keyword ← consume (.keyword .kReturn) "Expect 'return' keyword"
      let expr ← (do
        if !(← any [.singleChar .semiColon]) then
          pure (some (← separator f))
        else pure none)
      let _ ← consume (.singleChar .semiColon)
        "Expect ';' semicolon at the end of 'return' statement"
      pure (Stmt.ret keyword expr)

/-- Parser::block_statement, src/parser.rs lines 409-431, returning the
statement list that the source wraps in Stmt::Block. The while loop is
blockLoop. -/
def blockStatementList : Nat → M (List Stmt)
  | 0 => throw .outOfFuel
  | f + 1 => do
      let statements ← blockLoop f []
      let _ ← consume (.singleChar .rightBrace)
        "Expect '\x7d' to close the block scope"
      pure statements

/-- The while loop of Parser::block_statement, src/parser.rs lines
416-422. -/
def blockLoop : Nat → List Stmt → M (List Stmt)
  | 0, _ => throw .outOfFuel
  | f + 1, statements => do
      if !(← any [.singleChar .rightBrace]) then
        match (← declaration f) with
        | some d => blockLoop f (statements ++ [d])
        | none => blockLoop f statements
      else pure statements

/-- Parser::expr_statement, src/parser.rs lines 433-440. -/
def exprStatement : Nat → M Stmt
  | 0 => throw .outOfFuel
  | f + 1 => do
      let expr ← separator f
      let _ ← consume (.singleChar .semiColon) "Expect ';' after expression"
      pure (Stmt.expr expr)

end

end Parser

/-- Environment error values, from src/environment.rs (enum
EnvironmentError, lines 102-107). -/
inductive EnvironmentError where
  | undefinedVariable (name : String)
  | outOfScope (name : String)
  | invalidDistance (d : Nat)
deriving DecidableEq, Repr

/-- Resolver error values: the union of src/error.rs (enum ResolverError,
lines 135-139) and the variants src/resolver.rs constructs that this
revision of error.rs lacks (InvalidSelfUse, InvalidSuperUse,
SelfInheritance, ReturnOutsideFunction). The two panic variants model the
panic calls in Resolver::declare (src/resolver.rs line 142) and
Resolver::end_scope (line 165): a panic aborts the process, which the
embedding surfaces as a distinguished error. Message payloads are reduced
to the name involved (the source formats prose around it). The outOfFuel
value is an artifact of the embedding's fuel parameter on the mutually
recursive visitor (the source recursion is bounded by the AST); theorems
about resolver runs supply enough fuel never to reach it. -/
inductive ResolverError where
  | notInitialized (name : String)
  | invalidSelfUse (name : String)
  | invalidSuperUse (name : String)
  | selfInheritance (name : String)
  | returnOutsideFunction (name : String)
  | environmentError (e : EnvironmentError)
  | panicAlreadyDeclared (name : String)
  | panicUnusedVariable (name : String)
  | outOfFuel
deriving DecidableEq, Repr

/-- Runtime values, from src/interpreter.rs (enum MalisObject, lines
17-25, the revision the in-tree pipeline uses; the newer revision in
src/interpreter/object.rs adds Class and Instance variants that no claim
below exercises). The native function payload keeps the name and arity;
its function-pointer field is elided (the sole native ever constructed is
clock, whose wall-clock read the interpreter state models with an
oracle). The user function payload is the declaration alone: this
revision's UserFunction (src/interpreter.rs lines 294-309) captures no
closure. -/
inductive MalisObject where
  | boolean (b : Bool)
  | number (q : ℚ)
  | stringValue (s : String)
  | nativeFunction (name : String) (arity : Nat)
  | userFunction (function_declaration : FunctionDeclaration)
  | nil

/-- Runtime error values, from src/error.rs (enum RuntimeError, lines
147-167). Where the source formats a prose message, the embedding carries
the values the message is formatted from. The last three variants are
embedding artifacts: unsupportedStatement and unsupportedExpression mark
the statement and expression forms (class declarations, property access,
self, super) that the old revision's visitor traits in src/visit.rs do not
have; outOfFuel marks exhaustion of the recursion bound. No theorem
exercises any of the three. -/
inductive RuntimeError where
  | negation (obj : MalisObject)
  | addition (l r : MalisObject)
  | subtraction (l r : MalisObject)
  | multiplication (l r : MalisObject)
  | division (l r : MalisObject)
  | unaryEvaluation (op : Token)
  | binaryEvaluation (op : Token)
  | variableNotInitialized (var : Token)
  | invalidArgumentsNumber (expected got : Nat)
  | notCallable (obj : MalisObject)
  | environmentError (e : EnvironmentError)
  | systemTimeError
  | ret (value : MalisObject)
  | resolverError (e : ResolverError)
  | cannotAccessParentScope
  | multipleReferenceForEnclosingEnvironment
  | unsupportedStatement
  | unsupportedExpression
  | outOfFuel

/-- Token equality as the source PartialEq would compare tokens: by kind,
lexeme and line. The id field is an identity artifact of the embedding
(see Token) and takes no part. -/
def Token.srcEq (a b : Token) : Bool :=
  a.t_type = b.t_type ∧ a.lexeme = b.lexeme ∧ a.line = b.line

/-- MalisObject::is_truthy, src/interpreter.rs lines 43-54. -/
def MalisObject.is_truthy : MalisObject → Bool
  | .boolean b => b
  | .stringValue _ | .number _ => true
  | .nativeFunction _ _ | .userFunction _ => true
  | .nil => false

/-- MalisObject::is_callable, src/interpreter.rs lines 56-59. -/
def MalisObject.is_callable : MalisObject → Bool
  | .nativeFunction _ _ => true
  | .userFunction _ => true
  | _ => false

/-- The custom PartialEq of UserFunction, src/interpreter.rs lines
352-376: equal when the names agree, the parameter counts agree and the
parameters agree pairwise. -/
def userFunctionEq (f1 f2 : FunctionDeclaration) : Bool :=
  if !(f1.name.srcEq f2.name) then false
  else if f1.parameters.length ≠ f2.parameters.length then false
  else (f1.parameters.zip f2.parameters).all (fun (p, q) => p.srcEq q)

/-- The derived PartialEq of MalisObject (src/interpreter.rs line 17):
structural on each variant, delegating to the custom UserFunction equality.
The function-pointer comparison inside NativeFunction is elided (the sole
native is clock). -/
def MalisObject.eqB : MalisObject → MalisObject → Bool
  | .boolean a, .boolean b => a = b
  | .number a, .number b => a = b
  | .stringValue a, .stringValue b => a = b
  | .nativeFunction n1 a1, .nativeFunction n2 a2 => n1 = n2 ∧ a1 = a2
  | .userFunction f1, .userFunction f2 => userFunctionEq f1 f2
  | .nil, .nil => true
  | _, _ => false

/-- The discriminant order of the MalisObject variants as declared
(src/interpreter.rs lines 17-25); the derived PartialOrd orders values of
different variants by it. -/
def MalisObject.discriminant : MalisObject → Nat
  | .boolean _ => 0
  | .number _ => 1
  | .stringValue _ => 2
  | .nativeFunction _ _ => 3
  | .userFunction _ => 4
  | .nil => 5

/-- Rational comparison, standing in for the f32 comparison of number
payloads (they agree away from NaN and infinities, which no theorem
constructs). -/
def cmpRat (x y : ℚ) : Ordering :=
  if x < y then .lt else if x = y then .eq else .gt

/-- The derived PartialOrd of MalisObject (src/interpreter.rs line 17):
different variants compare by declaration order; equal variants compare
their fields (booleans with false below true, numbers numerically, strings
lexicographically, native functions by name then arity with the
function-pointer address comparison elided); user functions use the custom
PartialOrd impl at src/interpreter.rs lines 378-384, which returns None. -/
def MalisObject.partialCmp : MalisObject → MalisObject → Option Ordering
  | .boolean x, .boolean y => some (compare x y)
  | .number x, .number y => some (cmpRat x y)
  | .stringValue x, .stringValue y => some (compare x y)
  | .nativeFunction n1 a1, .nativeFunction n2 a2 =>
      some ((compare n1 n2).then (compare a1 a2))
  | .userFunction _, .userFunction _ => none
  | .nil, .nil => some .eq
  | a, b => some (compare a.discriminant b.discriminant)

/-- PartialOrd::lt as Rust derives it from partial_cmp. -/
def MalisObject.ltB (a b : MalisObject) : Bool :=
  a.partialCmp b = some .lt

/-- PartialOrd::le as Rust derives it from partial_cmp. -/
def MalisObject.leB (a b : MalisObject) : Bool :=
  a.partialCmp b = some .lt ∨ a.partialCmp b = some .eq

/-- PartialOrd::gt as Rust derives it from partial_cmp. -/
def MalisObject.gtB (a b : MalisObject) : Bool :=
  a.partialCmp b = some .gt

/-- PartialOrd::ge as Rust derives it from partial_cmp. -/
def MalisObject.geB (a b : MalisObject) : Bool :=
  a.partialCmp b = some .gt ∨ a.partialCmp b = some .eq

/-- The Not impl of this revision, src/interpreter.rs lines 96-106: it
returns Boolean(true) when the operand is truthy and Boolean(false)
otherwise, that is, the truthiness itself rather than its negation (the
newer revision in src/interpreter/object.rs lines 97-107 negates). -/
def MalisObject.notOp (a : MalisObject) : MalisObject :=
  if a.is_truthy then .boolean true else .boolean false

/-- The Neg impl, src/interpreter.rs lines 108-121. -/
def MalisObject.negOp : MalisObject → Except RuntimeError MalisObject
  | .number n => .ok (.number (-n))
  | a => .error (.negation a)

/-- Rendering of a number as the Rust Display of f32 would produce it,
needed only to form the concatenation results of the Add impl; the
embedding renders integral values without a fractional part and other
values as num/den (no theorem reads a non-integral rendering). -/
def numDisplay (q : ℚ) : String :=
  if q.den = 1 then toString q.num else toString q.num ++ "/" ++ toString q.den

/-- The Add impl, src/interpreter.rs lines 123-156: numeric addition on
two numbers, string concatenation when a string meets a string or a
number. -/
def MalisObject.addOp : MalisObject → MalisObject → Except RuntimeError MalisObject
  | .number l, .number r => .ok (.number (l + r))
  | .number l, .stringValue r => .ok (.stringValue (numDisplay l ++ r))
  | .stringValue l, .stringValue r => .ok (.stringValue (l ++ r))
  | .stringValue l, .number r => .ok (.stringValue (l ++ numDisplay r))
  | a, b => .error (.addition a b)

/-- The Sub impl, src/interpreter.rs lines 158-178. -/
def MalisObject.subOp : MalisObject → MalisObject → Except RuntimeError MalisObject
  | .number l, .number r => .ok (.number (l - r))
  | a, b => .error (.subtraction a b)

/-- The Mul impl, src/interpreter.rs lines 180-200. -/
def MalisObject.mulOp : MalisObject → MalisObject → Except RuntimeError MalisObject
  | .number l, .number r => .ok (.number (l * r))
  | a, b => .error (.multiplication a b)

/-- The Div impl, src/interpreter.rs lines 202-229: dividing by zero is a
runtime error. -/
def MalisObject.divOp : MalisObject → MalisObject → Except RuntimeError MalisObject
  | .number l, .number r =>
      if r = 0 then .error (.division (.number l) (.number r))
      else .ok (.number (l / r))
  | a, b => .error (.division a b)

/-- Lexical environments, from src/environment.rs (struct Environment,
lines 6-12): a bindings map plus an optional enclosing parent. The
HashMap is modelled by an association list with at most one entry per
key; Rc and RefCell sharing is modelled by explicit state passing over
this immutable tree. -/
inductive Env where
  | mk (values : List (String × MalisObject)) (enclosing : Option Env)

/-- The bindings of an environment. -/
def Env.values : Env → List (String × MalisObject)
  | .mk values _ => values

/-- The parent of an environment. -/
def Env.enclosing : Env → Option Env
  | .mk _ enclosing => enclosing

/-- HashMap::insert on the association-list model: replace the binding of
an existing key, otherwise add the binding. -/
def upsert (l : List (String × MalisObject)) (k : String) (v : MalisObject) :
    List (String × MalisObject) :=
  match l with
  | [] => [(k, v)]
  | (k', v') :: rest =>
      if k' = k then (k', v) :: rest else (k', v') :: upsert rest k v

/-- Environment::define, src/environment.rs lines 34-37 (always
succeeds). -/
def Env.define (e : Env) (name : String) (value : MalisObject) : Env :=
  .mk (upsert e.values name value) e.enclosing

/-- Environment::get, src/environment.rs lines 41-54: the binding in this
environment, else the enclosing chain, else an undefined-variable
error. -/
def Env.get : Env → String → Except EnvironmentError MalisObject
  | .mk values enclosing, name =>
      match values.lookup name with
      | some v => .ok v
      | none =>
          match enclosing with
          | some e => e.get name
          | none => .error (.undefinedVariable name)

/-- Environment::get_at, src/environment.rs lines 57-66: while the
distance exceeds 1, step to the enclosing environment with the distance
decremented; then fall back to Environment::get (which itself searches
the whole enclosing chain). -/
def Env.getAt : Env → Nat → String → Except EnvironmentError MalisObject
  | e@(.mk _ enclosing), distance, name =>
      if distance > 1 then
        match enclosing with
        | some e' => e'.getAt (distance - 1) name
        | none => .error (.invalidDistance distance)
      else e.get name

/-- Environment::insert, src/environment.rs lines 68-83 (assignment):
update the binding in the nearest environment of the chain that has the
key; error when none has it. Returns the assigned value with the updated
environment. -/
def Env.insert : Env → String → MalisObject →
    Except EnvironmentError (MalisObject × Env)
  | .mk values enclosing, name, value =>
      if (values.lookup name).isSome then
        .ok (value, .mk (upsert values name value) enclosing)
      else
        match enclosing with
        | some e =>
            match e.insert name value with
            | .ok (v, e') => .ok (v, .mk values (some e'))
            | .error err => .error err
        | none => .error (.undefinedVariable name)

/-- Environment::insert_at, src/environment.rs lines 85-99: walk exactly
distance parents, then assign with Environment::insert there. -/
def Env.insertAt : Env → Nat → String → MalisObject →
    Except EnvironmentError (MalisObject × Env)
  | e@(.mk values enclosing), distance, name, value =>
      if distance ≠ 0 then
        match enclosing with
        | some e' =>
            match e'.insertAt (distance - 1) name value with
            | .ok (v, e'') => .ok (v, .mk values (some e''))
            | .error err => .error err
        | none => .error (.invalidDistance distance)
      else e.insert name value

/-- The globals environment built by Interpreter::new, src/interpreter.rs
lines 410-434: a single native binding named clock. -/
def globalsEnv : Env :=
  .mk [("clock", .nativeFunction "clock <native fn>" 0)] none

/-- The starting current environment of Interpreter::new: an empty
environment whose parent is the globals. -/
def initialEnv : Env :=
  .mk [] (some globalsEnv)

/-- The interpreter state, from src/interpreter.rs (struct Interpreter,
lines 386-391). The _globals field of the source is the root of the
current environment chain and is never read by this revision, so only the
current environment is carried. The output field collects the objects the
print statement writes (their Display rendering is elided); the readTrace
field is instrumentation recording, at each variable read, the name read
and the environment that was current — it exists to state the
scope-distance invariant and affects no behaviour; the clock field is the
oracle the sole native (clock) reads. -/
structure IState where
  environment : Env
  output : List MalisObject
  readTrace : List (String × Env)
  clock : ℚ

/-- The interpreter state at program start. -/
def initialIState : IState :=
  { environment := initialEnv, output := [], readTrace := [], clock := 0 }

namespace Interp

/-- Interpreter computations: mutable access to the interpreter state with
a RuntimeError channel, the shape of the Rust methods. Errors keep the
state reached when they were raised, as the mutated Rust interpreter
does. -/
abbrev M (α : Type) : Type := EStateM RuntimeError IState α

/-- Lift a pure Result into the interpreter computation. -/
def liftE : Except RuntimeError α → M α
  | .ok a => pure a
  | .error e => throw e

/-- MalisCallable::arity for MalisObject, src/interpreter.rs lines
63-72. -/
def arityOf : MalisObject → Except RuntimeError Nat
  | .nativeFunction _ arity => .ok arity
  | .userFunction fd => .ok fd.parameters.length
  | o => .error (.notCallable o)

/-- Interpreter::visit_variable, src/interpreter.rs lines 638-645: fetch
the binding through the environment chain; a Nil value raises
VariableNotInitialized, any other value is returned. The read is also
recorded in the instrumentation trace together with the environment that
is current at the read (see IState). -/
def visitVariable (var : Token) : M MalisObject := do
  let st ← get
  set { st with readTrace := st.readTrace ++ [(var.lexeme, st.environment)] }
  match st.environment.get var.lexeme with
  | .error e => throw (.environmentError e)
  | .ok object =>
      match object with
      | .nil => throw (.variableNotInitialized var)
      | _ => pure object

mutual

/-- Interpreter::evaluate dispatched through Expr::walk, src/interpreter.rs
lines 443-445 and 551-711. The property access, self and super expression
forms are absent from this revision's ExprVisitor trait (src/visit.rs
lines 11-21) and fall to the unsupportedExpression artifact; no theorem
reaches them. -/
def evaluate : Nat → Expr → M MalisObject
  | 0, _ => throw .outOfFuel
  | f + 1, e =>
      match e with
      | .unary operator right => do
          let right_malis_object ← evaluate f right
          match operator.t_type with
          | .singleChar .minus => liftE right_malis_object.negOp
          | .singleChar .bang => pure right_malis_object.notOp
          | _ => throw (.unaryEvaluation operator)
      | .binary left operator right => do
          let left_object ← evaluate f left
          let right_object ← evaluate f right
          match operator.t_type with
          | .singleChar .plus => liftE (left_object.addOp right_object)
          | .singleChar .minus => liftE (left_object.subOp right_object)
          | .singleChar .slash => liftE (left_object.divOp right_object)
          | .singleChar .star => liftE (left_object.mulOp right_object)
          | .comparison .greater =>
              pure (.boolean (left_object.gtB right_object))
          | .comparison .greaterEqual =>
              pure (.boolean (left_object.geB right_object))
          | .comparison .less =>
              pure (.boolean (left_object.ltB right_object))
          | .comparison .lessEqual =>
              pure (.boolean (left_object.leB right_object))
          | .comparison .bangEqual =>
              pure (.boolean (!(left_object.eqB right_object)))
          | .comparison .equalEqual =>
              pure (.boolean (left_object.eqB right_object))
          | .singleChar .comma => pure right_object
          | _ => throw (.binaryEvaluation operator)
      | .ternary first _ second _ third => do
          let cond ← evaluate f first
          if cond.is_truthy then evaluate f second else evaluate f third
      | .literal l =>
          match l with
          | .number n => pure (.number n)
          | .litString s => pure (.stringValue s)
          | .litTrue => pure (.boolean true)
          | .litFalse => pure (.boolean false)
          | .litNil => pure .nil
      | .group inner => evaluate f inner
      | .var tok => visitVariable tok
      | .assign ident value => do
          let malis_object ← evaluate f value
          let st ← get
          match st.environment.insert ident.lexeme malis_object with
          | .ok (v, env') => do
              set { st with environment := env' }
              pure v
          | .error e => throw (.environmentError e)
      | .logical left operator right => do
          let left_object ← evaluate f left
          let left_object_is_true := left_object.is_truthy
          match operator.t_type with
          | .keyword .kOr =>
              if left_object_is_true then pure left_object
              else evaluate f right
          | .keyword .kAnd =>
              if !left_object_is_true then pure left_object
              else evaluate f right
          | _ => throw .unsupportedExpression
      | .call callee paren args => do
          let calleeObj ← evaluate f callee
          let arguments ← evalArgs f args
          if !calleeObj.is_callable then
            throw (.notCallable calleeObj)
          else do
            let arity ← liftE (arityOf calleeObj)
            if arguments.length ≠ arity then
              throw (.invalidArgumentsNumber arity arguments.length)
            else
              callObj f calleeObj arguments paren
      | .get _ _ => throw .unsupportedExpression
      | .set _ _ _ => throw .unsupportedExpression
      | .classSelf _ => throw .unsupportedExpression
      | .superExpr _ _ => throw .unsupportedExpression

/-- The argument loop of Interpreter::visit_call, src/interpreter.rs lines
688-692. -/
def evalArgs : Nat → List Expr → M (List MalisObject)
  | 0, _ => throw .outOfFuel
  | _ + 1, [] => pure []
  | f + 1, e :: rest => do
      let v ← evaluate f e
      let vs ← evalArgs f rest
      pure (v :: vs)

/-- MalisCallable::call for MalisObject, src/interpreter.rs lines 74-87:
dispatch to the native or user function; everything else is not
callable. The sole native is clock, whose closure reads the wall clock
(src/interpreter.rs lines 416-426); the read is modelled by the clock
oracle of the state. -/
def callObj : Nat → MalisObject → List MalisObject → Token → M MalisObject
  | 0, _, _, _ => throw .outOfFuel
  | _ + 1, .nativeFunction _ _, _, _ => do
      let st ← get
      pure (.number st.clock)
  | f + 1, .userFunction fd, arguments, _ => userFunctionCall f fd arguments
  | _ + 1, o, _, _ => throw (.notCallable o)

/-- UserFunction::call of this revision, src/interpreter.rs lines 316-337:
take the interpreter's current environment out (leaving the default empty
environment), define the parameters into it, execute the body as a block
whose parent is that environment, and produce Nil. -/
def userFunctionCall : Nat → FunctionDeclaration → List MalisObject →
    M MalisObject
  | 0, _, _ => throw .outOfFuel
  | f + 1, fd, arguments => do
      let st ← get
      let environment := st.environment
      set { st with environment := Env.mk [] none }
      let environment :=
        (fd.parameters.zip arguments).foldl
          (fun e (p, a) => e.define p.lexeme a) environment
      executeBlock f fd.body environment
      pure .nil

/-- Interpreter::execute_block, src/interpreter.rs lines 451-484: make a
fresh environment whose parent is the given one the current environment;
execute the statements; afterwards move the parent back in as the current
environment. The statement loop propagates an error with the
question-mark operator before the restoration code runs, so on the error
path the current environment remains whatever the failing statement left
(the fresh child, possibly mutated). -/
def executeBlock : Nat → List Stmt → Env → M Unit
  | 0, _, _ => throw .outOfFuel
  | f + 1, stmts, parent_env => do
      modify (fun st =>
        { st with environment := Env.mk [] (some parent_env) })
      executeStmts f stmts
      let st ← get
      match st.environment.enclosing with
      | some env => set { st with environment := env }
      | none => throw .cannotAccessParentScope

/-- The statement loop shared by Interpreter::interpret (src/interpreter.rs
lines 436-441) and Interpreter::execute_block (lines 465-467). -/
def executeStmts : Nat → List Stmt → M Unit
  | 0, _ => throw .outOfFuel
  | _ + 1, [] => pure ()
  | f + 1, s :: rest => do
      execute f s
      executeStmts f rest

/-- Interpreter::execute dispatched through Stmt::walk, src/interpreter.rs
lines 447-449 and 487-549. The return arm follows
src/interpreter/visit.rs lines 66-76 (the revision of the visitor trait in
src/visit.rs has no return arm; the newer one signals the Return value on
the error channel); the class arm falls to the unsupportedStatement
artifact. No theorem reaches either arm. -/
def execute : Nat → Stmt → M Unit
  | 0, _ => throw .outOfFuel
  | f + 1, s =>
      match s with
      | .expr e => do
          let _ ← evaluate f e
          pure ()
      | .print e => do
          let v ← evaluate f e
          modify (fun st => { st with output := st.output ++ [v] })
      | .var identifier expr => do
          let value ←
            match expr with
            | some e => evaluate f e
            | none => pure .nil
          modify (fun st =>
            { st with environment :=
                st.environment.define identifier.lexeme value })
      | .block stmts => do
          let st ← get
          set { st with environment := Env.mk [] none }
          executeBlock f stmts st.environment
      | .ifS condition then_branch else_branch => do
          let cond ← evaluate f condition
          if cond.is_truthy then execute f then_branch
          else
            match else_branch with
            | some branch => execute f branch
            | none => pure ()
      | .whileS condition stmt => whileLoop f condition stmt
      | .function name parameters body => do
          let func : MalisObject := .userFunction ⟨name, parameters, body⟩
          modify (fun st =>
            { st with environment :=
                st.environment.define name.lexeme func })
      | .ret _ expr => do
          let value ←
            match expr with
            | some e => evaluate f e
            | none => pure .nil
          throw (.ret value)
      | .classS _ _ _ => throw .unsupportedStatement

/-- The loop of Interpreter::visit_while_stmt, src/interpreter.rs lines
529-535. -/
def whileLoop : Nat → Expr → Stmt → M Unit
  | 0, _, _ => throw .outOfFuel
  | f + 1, condition, stmt => do
      let cond ← evaluate f condition
      if cond.is_truthy then do
        execute f stmt
        whileLoop f condition stmt
      else pure ()

end

/-- Interpreter::interpret, src/interpreter.rs lines 436-441. -/
def interpret (f : Nat) (statements : List Stmt) : M Unit :=
  executeStmts f statements

end Interp

/-- ResolverFunctionType, src/resolver.rs lines 42-47. -/
inductive ResolverFunctionType where
  | method
  | function
  | none
deriving DecidableEq, Repr

/-- ClassType, src/resolver.rs lines 49-54. -/
inductive ClassType where
  | class'
  | subclass
  | none
deriving DecidableEq, Repr

/-- The key of a resolution-table entry. The source keys the table by a
string: for variables, assignments and self it formats the stable address
of an AST node with the p format specifier, and for super expressions the
Debug rendering of the keyword and method tokens (src/resolver.rs lines
213, 219, 257, 283-286). Node addresses are modelled by the id field of
Token; the injection into strings is elided. For assignments the source
formats the address of the assigned value expression rather than the
target token; both are stable identities of the same use site, and the
embedding keys by the target token id (no theorem exercises assignment
resolution). -/
inductive ResKey where
  | token (id : Nat)
  | superK (keywordId methodId : Nat)
deriving DecidableEq, Repr

/-- The resolver state, from src/resolver.rs (struct Resolver, lines
24-40): the scope stack (the source LinkedList keeps the innermost scope
at the back; the embedding keeps it at the head of the list), the current
function and class markers, and the resolution side table that the source
stores on the interpreter through Interpreter::resolve (the locals
field). Each scope maps a name to the pair (defined, accessed) of flags
described at src/resolver.rs lines 29-32. -/
structure RState where
  scopes : List (List (String × (Bool × Bool)))
  current_function : ResolverFunctionType
  current_class : ClassType
  locals : List (ResKey × Nat)

/-- The state Resolver::new builds, src/resolver.rs lines 57-64. -/
def initialRState : RState :=
  { scopes := [], current_function := .none, current_class := .none,
    locals := [] }

namespace Resolver

/-- Resolver computations: mutable access to the resolver state (and the
resolution table it carries) with a ResolverError channel. Errors keep
the state reached when raised; in particular the table entries recorded
before a failure remain visible. -/
abbrev M (α : Type) : Type := EStateM ResolverError RState α

/-- HashMap::insert on a scope: replace the flags of an existing name,
otherwise add the entry. -/
def upsertScope (l : List (String × (Bool × Bool))) (k : String)
    (v : Bool × Bool) : List (String × (Bool × Bool)) :=
  match l with
  | [] => [(k, v)]
  | (k', v') :: rest =>
      if k' = k then (k', v) :: rest else (k', v') :: upsertScope rest k v

/-- Resolver::begin_scope, src/resolver.rs lines 130-132. -/
def beginScope : M Unit :=
  modify (fun st => { st with scopes := [] :: st.scopes })

/-- Resolver::declare, src/resolver.rs lines 134-148. A redeclaration in
the same scope panics in the source (line 142); the panic is modelled by
the panicAlreadyDeclared error. -/
def declare (name : String) : M Unit := do
  let st ← get
  match st.scopes with
  | current_scope :: rest =>
      if (current_scope.lookup name).isSome then
        throw (.panicAlreadyDeclared name)
      else
        set { st with
          scopes := upsertScope current_scope name (false, false) :: rest }
  | [] => pure ()

/-- Resolver::define, src/resolver.rs lines 150-156. -/
def define (name : String) : M Unit := do
  let st ← get
  match st.scopes with
  | current_scope :: rest =>
      set { st with
        scopes := upsertScope current_scope name (true, false) :: rest }
  | [] => pure ()

/-- Resolver::end_scope, src/resolver.rs lines 158-169: pop the innermost
scope and panic (modelled by panicUnusedVariable) when it holds a binding
that is defined, never accessed, and named neither self nor super. -/
def endScope : M Unit := do
  let st ← get
  match st.scopes with
  | scope :: rest => do
      set { st with scopes := rest }
      match scope.find? (fun e =>
          e.2.1 ∧ !e.2.2 ∧ e.1 ≠ "self" ∧ e.1 ≠ "super") with
      | some e => throw (.panicUnusedVariable e.1)
      | none => pure ()
  | [] => pure ()

/-- Resolver::resolve_local, src/resolver.rs lines 85-99: find the
innermost scope holding the name and record the number of scopes between
the innermost scope and it (0 meaning the innermost). With the innermost
scope at the head of the embedded stack, that count is the index of the
first scope containing the name, which equals the source expression
scopes.len() - 1 - idx for the back-to-front iteration the source
performs. Recording is Interpreter::resolve storing into the locals
table. A miss records nothing (the name is taken as global). -/
def resolveLocal (key : ResKey) (name : Token) : M Unit := do
  let st ← get
  match st.scopes.findIdx? (fun scope =>
      (scope.lookup name.lexeme).isSome) with
  | some i => set { st with locals := st.locals ++ [(key, i)] }
  | Option.none => pure ()

/-- Resolver::visit_variable, src/resolver.rs lines 197-215: error when
the innermost scope holds the name still undefined (a read inside its own
initializer); otherwise insert the name into the innermost scope with
both flags set, then resolve the use site. -/
def visitVariable (varTok : Token) : M Unit := do
  let st ← get
  match st.scopes with
  | current_scope :: rest =>
      if current_scope.lookup varTok.lexeme = some (false, false) then
        throw (.notInitialized varTok.lexeme)
      else do
        set { st with
          scopes := upsertScope current_scope varTok.lexeme (true, true)
            :: rest }
        resolveLocal (.token varTok.id) varTok
  | [] => resolveLocal (.token varTok.id) varTok

/-- The parameter loop of Resolver::resolve_function, src/resolver.rs
lines 114-117. -/
def declareParams : List Token → M Unit
  | [] => pure ()
  | p :: rest => do
      declare p.lexeme
      define p.lexeme
      declareParams rest

mutual

/-- Resolver::resolve, src/resolver.rs lines 66-75: begin a scope, resolve
the statements, end the scope. The fuel parameter, shared by the whole
mutually recursive visitor, only bounds the recursion depth. -/
def resolveTop : Nat → List Stmt → M Unit
  | 0, _ => throw .outOfFuel
  | f + 1, stmts => do
      beginScope
      resolveStmts f stmts
      endScope

/-- The statement loop of Resolver::resolve, src/resolver.rs lines
69-71. -/
def resolveStmts : Nat → List Stmt → M Unit
  | 0, _ => throw .outOfFuel
  | _ + 1, [] => pure ()
  | f + 1, s :: rest => do
      resolveStmt f s
      resolveStmts f rest

/-- Resolver::resolve_function, src/resolver.rs lines 101-128: save and
set the current function marker, open a scope, declare and define the
parameters, resolve the body with Resolver::resolve (which opens a second
scope of its own), close the scope, restore the marker. -/
def resolveFunction : Nat → Token → List Token → List Stmt →
    ResolverFunctionType → M Unit
  | 0, _, _, _, _ => throw .outOfFuel
  | f + 1, _name, parameters, body, func_type => do
      let func_state ← (fun st => st.current_function) <$> get
      modify (fun st => { st with current_function := func_type })
      beginScope
      declareParams parameters
      resolveTop f body
      endScope
      modify (fun st => { st with current_function := func_state })

/-- The method loop of Resolver::visit_class, src/resolver.rs lines
411-415 (only function statements are considered). -/
def resolveMethods : Nat → List Stmt → M Unit
  | 0, _ => throw .outOfFuel
  | _ + 1, [] => pure ()
  | f + 1, .function name parameters body :: rest => do
      resolveFunction f name parameters body .method
      resolveMethods f rest
  | f + 1, _ :: rest => resolveMethods f rest

/-- The StmtVisitor of the resolver, src/resolver.rs lines 292-428,
dispatched through Stmt::walk. -/
def resolveStmt : Nat → Stmt → M Unit
  | 0, _ => throw .outOfFuel
  | f + 1, s =>
      match s with
      | .expr e => resolveExpr f e
      | .print e => resolveExpr f e
      | .var identifier expr => do
          declare identifier.lexeme
          match expr with
          | some e => resolveExpr f e
          | Option.none => pure ()
          define identifier.lexeme
      | .block stmts => do
          beginScope
          resolveTop f stmts
          endScope
      | .ifS condition then_branch else_branch => do
          resolveExpr f condition
          resolveStmt f then_branch
          match else_branch with
          | some branch => resolveStmt f branch
          | Option.none => pure ()
      | .whileS condition stmt => do
          resolveExpr f condition
          resolveStmt f stmt
      | .ret keyword expr => do
          let st ← get
          if st.current_function = .none then
            throw (.returnOutsideFunction keyword.lexeme)
          else
            match expr with
            | some value => resolveExpr f value
            | Option.none => pure ()
      | .function name parameters body => do
          declare name.lexeme
          define name.lexeme
          resolveFunction f name parameters body .function
      | .classS name superclass methods => do
          let class_type ← (fun st => st.current_class) <$> get
          modify (fun st => { st with current_class := .class' })
          declare name.lexeme
          define name.lexeme
          match superclass with
          | some sc => do
              modify (fun st => { st with current_class := .subclass })
              if sc.lexeme = name.lexeme then
                throw (.selfInheritance name.lexeme)
              else do
                visitVariable sc
                beginScope
                declare "super"
                define "super"
          | Option.none => pure ()
          beginScope
          define "self"
          resolveMethods f methods
          endScope
          match superclass with
          | some _ => endScope
          | Option.none => pure ()
          modify (fun st => { st with current_class := class_type })

/-- The ExprVisitor of the resolver, src/resolver.rs lines 172-288,
dispatched through Expr::walk. -/
def resolveExpr : Nat → Expr → M Unit
  | 0, _ => throw .outOfFuel
  | f + 1, e =>
      match e with
      | .unary _ right => resolveExpr f right
      | .binary left _ right => do
          resolveExpr f left
          resolveExpr f right
      | .ternary first _ second _ third => do
          resolveExpr f first
          resolveExpr f second
          resolveExpr f third
      | .literal _ => pure ()
      | .group g => resolveExpr f g
      | .var tok => visitVariable tok
      | .assign ident value => do
          resolveExpr f value
          resolveLocal (.token ident.id) ident
      | .logical left _ right => do
          resolveExpr f left
          resolveExpr f right
      | .call callee _ args => do
          resolveExpr f callee
          resolveArgs f args
      | .get _ object => resolveExpr f object
      | .set object _ value => do
          resolveExpr f value
          resolveExpr f object
      | .classSelf keyword => do
          let st ← get
          if st.current_class = ClassType.none then
            throw (.invalidSelfUse keyword.lexeme)
          else
            resolveLocal (.token keyword.id) keyword
      | .superExpr keyword method => do
          let st ← get
          match st.current_class with
          | ClassType.none => throw (.invalidSuperUse keyword.lexeme)
          | ClassType.class' => throw (.invalidSuperUse keyword.lexeme)
          | ClassType.subclass =>
              resolveLocal (.superK keyword.id method.id) keyword

/-- The argument loop of Resolver::visit_call, src/resolver.rs lines
231-234. -/
def resolveArgs : Nat → List Expr → M Unit
  | 0, _ => throw .outOfFuel
  | _ + 1, [] => pure ()
  | f + 1, a :: rest => do
      resolveExpr f a
      resolveArgs f rest

end

/-- Running the resolver over a program with the given recursion fuel:
Resolver::new followed by Resolver::resolve, src/resolver.rs lines 57-75.
The result keeps the final resolver state (with its table) next to the
success or first error. -/
def resolveProgram (f : Nat) (stmts : List Stmt) :
    EStateM.Result ResolverError RState Unit :=
  (resolveTop f stmts).run initialRState

end Resolver

/-- Top-level error values, from src/error.rs (enum MalisError, lines
6-14); io payloads elided. -/
inductive MalisError where
  | stdIoError
  | scannerError (e : ScannerError)
  | noneTokenType
  | astError (e : AstError)
  | parserError (e : ParserError)
  | runtimeError (e : RuntimeError)

/-- The exit code of main when invoked on a script, src/bin/malis.rs lines
8-22: the Err(MalisError::RuntimeError) arm prints and exits with code
70; every other outcome of Malis::execute, including success and every
static (scanner, parser, ast) or io error, falls through the catch-all
arm and the process exits 0 when main returns. No call to exit with 65 or
74 exists in the binary. -/
def mainExitCode (execution : Except MalisError Unit) : Nat :=
  match execution with
  | .error (.runtimeError _) => 70
  | _ => 0

end Malis

/-! Concrete inputs and result selectors used by the verification theorems
below: token values as Scanner::scan_token builds them, token families for
calls, declarations and ternary chains, the programs of the tested
scenarios, and projections reading one component out of a run result. -/

namespace Malis

/-- The token for the literal 1, as the scanner builds it. -/
def oneTok : Token := { t_type := .literal (.number 1), lexeme := "1", line := 1 }

/-- A comma token. -/
def commaTok : Token := { t_type := .singleChar .comma, lexeme := ",", line := 1 }

/-- A left parenthesis token. -/
def lparenTok : Token := { t_type := .singleChar .leftParen, lexeme := "(", line := 1 }

/-- A right parenthesis token. -/
def rparenTok : Token := { t_type := .singleChar .rightParen, lexeme := ")", line := 1 }

/-- An end-of-file token (TokenType::Eof, expected by Parser::tokens_left). -/
def eofTok : Token := { t_type := .eof, lexeme := "", line := 1 }

/-- An identifier token f naming the called function. -/
def fIdentTok : Token := { t_type := .ident, lexeme := "f", line := 1 }

/-- An identifier token p naming a declared parameter. -/
def paramTok : Token := { t_type := .ident, lexeme := "p", line := 1 }

/-- A left brace token. -/
def lbraceTok : Token :=
  { t_type := .singleChar .leftBrace, lexeme := "\x7b", line := 1 }

/-- A right brace token. -/
def rbraceTok : Token :=
  { t_type := .singleChar .rightBrace, lexeme := "\x7d", line := 1 }

/-- A question mark token. -/
def qTok : Token := { t_type := .singleChar .question, lexeme := "?", line := 1 }

/-- A colon token. -/
def cTok : Token := { t_type := .singleChar .colon, lexeme := ":", line := 1 }

/-- A less-than comparison token. -/
def lessTok : Token := { t_type := .comparison .less, lexeme := "<", line := 1 }

/-- A less-or-equal comparison token. -/
def lessEqualTok : Token :=
  { t_type := .comparison .lessEqual, lexeme := "<=", line := 1 }

/-- A greater-than comparison token. -/
def greaterTok : Token :=
  { t_type := .comparison .greater, lexeme := ">", line := 1 }

/-- A greater-or-equal comparison token. -/
def greaterEqualTok : Token :=
  { t_type := .comparison .greaterEqual, lexeme := ">=", line := 1 }

/-- A plus token. -/
def plusTok : Token := { t_type := .singleChar .plus, lexeme := "+", line := 1 }

/-- A number literal token with the given value. -/
def numTok (v : ℚ) : Token :=
  { t_type := .literal (.number v), lexeme := "n", line := 1 }

/-- The tokens after the opening parenthesis of a call with k arguments,
each the literal 1: k = 0 closes at once, otherwise k arguments separated
by commas, then the closing parenthesis and eof. -/
def argTailToks : Nat → List Token
  | 0 => [rparenTok, eofTok]
  | 1 => [oneTok, rparenTok, eofTok]
  | n + 2 => oneTok :: commaTok :: argTailToks (n + 1)

/-- The token stream of the call expression f(1, 1, ..., 1) with n
arguments, ending in eof. -/
def callToks (n : Nat) : List Token := fIdentTok :: lparenTok :: argTailToks n

/-- The tokens after the opening parenthesis of a declaration with k
parameters named p, then the closing parenthesis, an empty braced body and
eof. -/
def paramTailToks : Nat → List Token
  | 0 => [rparenTok, lbraceTok, rbraceTok, eofTok]
  | 1 => [paramTok, rparenTok, lbraceTok, rbraceTok, eofTok]
  | n + 2 => paramTok :: commaTok :: paramTailToks (n + 1)

/-- The token stream following the fun keyword of a declaration
f(p, ..., p) with an empty body, n parameters, ending in eof. -/
def funToks (n : Nat) : List Token := fIdentTok :: lparenTok :: paramTailToks n

/-- The token stream of the chained ternary v1 ? v2 : v3 ? v4 : v5. -/
def ternaryChainToks (v1 v2 v3 v4 v5 : ℚ) : List Token :=
  [numTok v1, qTok, numTok v2, cTok, numTok v3,
   qTok, numTok v4, cTok, numTok v5, eofTok]

/-- The AST the parser produces for the chained ternary with values 1..5
(established below: the chain groups to the left). -/
def c7LeftAst : Expr :=
  .ternary
    (.ternary (.literal (.number 1)) qTok (.literal (.number 2)) cTok
      (.literal (.number 3)))
    qTok (.literal (.number 4)) cTok (.literal (.number 5))

/-- The token list Scanner::scan_tokens produces for the source text
print 1 + 2 * 3; — the star lexeme carries SingleChar::SemiColon. -/
def c1Tokens : List Token :=
  [{ t_type := .keyword .kPrint, lexeme := "print", line := 1 },
   { t_type := .literal (.number 1), lexeme := "1", line := 1 },
   { t_type := .singleChar .plus, lexeme := "+", line := 1 },
   { t_type := .literal (.number 2), lexeme := "2", line := 1 },
   { t_type := .singleChar .semiColon, lexeme := "*", line := 1 },
   { t_type := .literal (.number 3), lexeme := "3", line := 1 },
   { t_type := .singleChar .semiColon, lexeme := ";", line := 1 }]

/-- The declaration token of x in var x = 1. -/
def xDecl : Token := { t_type := .ident, lexeme := "x", line := 1, id := 1 }

/-- The use-site token of x in print x (a distinct AST node). -/
def xUse : Token := { t_type := .ident, lexeme := "x", line := 1, id := 7 }

/-- The program var x = 1; \x7b print x; \x7d as the parser would build
it. -/
def c2Program : List Stmt :=
  [.var xDecl (some (.literal (.number 1))),
   .block [.print (.var xUse)]]

/-- The environment that is current when print x reads x in c2Program: the
block child environment (no bindings of its own) over the top-level
environment holding x. -/
def c2ReadEnv : Env :=
  Env.mk [] (some (Env.mk [("x", .number 1)] (some globalsEnv)))

/-- The declaration token of a in var a = "global". -/
def aDecl0 : Token := { t_type := .ident, lexeme := "a", line := 1, id := 1 }

/-- The declaration token of showA. -/
def showADecl : Token := { t_type := .ident, lexeme := "showA", line := 1, id := 2 }

/-- The use-site token of a inside the body of showA. -/
def aUse : Token := { t_type := .ident, lexeme := "a", line := 1, id := 3 }

/-- The first call's use-site token of showA. -/
def showAUse1 : Token := { t_type := .ident, lexeme := "showA", line := 1, id := 4 }

/-- The second declaration token of a in var a = "block". -/
def aDecl2 : Token := { t_type := .ident, lexeme := "a", line := 1, id := 5 }

/-- The second call's use-site token of showA. -/
def showAUse2 : Token := { t_type := .ident, lexeme := "showA", line := 1, id := 6 }

/-- The closure scenario of the spec: var a = "global"; then a block
declaring fun showA() \x7b print a; \x7d, calling it, shadowing a with
"block", and calling it again. -/
def c3Program : List Stmt :=
  [.var aDecl0 (some (.literal (.litString "global"))),
   .block
     [.function showADecl [] [.print (.var aUse)],
      .expr (.call (.var showAUse1) rparenTok []),
      .var aDecl2 (some (.literal (.litString "block"))),
      .expr (.call (.var showAUse2) rparenTok [])]]


/-- The top-level environment of c3Program after var a = "global". -/
def c3E1 : Env := Env.mk [("a", .stringValue "global")] (some globalsEnv)

/-- The function object the declaration of showA builds. -/
def c3ShowA : MalisObject :=
  .userFunction ⟨showADecl, [], [.print (.var aUse)]⟩

/-- The block environment of c3Program holding showA, before the shadowing
declaration of a. -/
def c3B1 : Env := Env.mk [("showA", c3ShowA)] (some c3E1)

/-- The block environment of c3Program after var a = "block". -/
def c3B2 : Env :=
  Env.mk [("showA", c3ShowA), ("a", .stringValue "block")] (some c3E1)

/-- The body environment of the first call of showA. -/
def c3C1 : Env := Env.mk [] (some c3B1)

/-- The body environment of the second call of showA. -/
def c3C2 : Env := Env.mk [] (some c3B2)

/-- The block \x7b 1 + nil; \x7d whose sole statement raises a runtime
error. -/
def c4Block : Stmt :=
  .block [.expr (.binary (.literal (.number 1)) plusTok (.literal .litNil))]

/-- An interpreter state whose environment binds x to Nil. -/
def c10NilState : IState :=
  { initialIState with environment := initialEnv.define "x" .nil }

/-- An interpreter state whose environment binds x to the number 1. -/
def c10NumState : IState :=
  { initialIState with environment := initialEnv.define "x" (.number 1) }

/-- The resolution table of a resolver run, also of a failed one (the
EStateM error keeps the state reached). -/
def resolvedLocals (r : EStateM.Result ResolverError RState Unit) :
    List (ResKey × Nat) :=
  match r with
  | .ok _ st => st.locals
  | .error _ st => st.locals

/-- The error of a resolver run, none when it succeeded. -/
def resolvedError (r : EStateM.Result ResolverError RState Unit) :
    Option ResolverError :=
  match r with
  | .ok _ _ => none
  | .error e _ => some e

/-- The objects a program printed when interpreted from the initial state
with fuel 100. -/
def runOutput (prog : List Stmt) : List MalisObject :=
  match (Interp.interpret 100 prog).run initialIState with
  | .ok _ st => st.output
  | .error _ st => st.output

/-- The instrumented read trace of a program interpreted from the initial
state with fuel 100: each variable read with the environment current at
the read. -/
def runTrace (prog : List Stmt) : List (String × Env) :=
  match (Interp.interpret 100 prog).run initialIState with
  | .ok _ st => st.readTrace
  | .error _ st => st.readTrace

end Malis

namespace Malis

theorem run_bind {ε σ α β : Type} (x : EStateM ε σ α) (f : α → EStateM ε σ β) (s : σ) :
    (x >>= f).run s = match x.run s with
      | .ok a s' => (f a).run s'
      | .error e s' => .error e s' := rfl

theorem run_pure {ε σ α : Type} (a : α) (s : σ) :
    (pure a : EStateM ε σ α).run s = .ok a s := rfl

theorem run_get {ε σ : Type} (s : σ) :
    (get : EStateM ε σ σ).run s = .ok s s := rfl

theorem run_set {ε σ : Type} (s' s : σ) :
    (set s' : EStateM ε σ PUnit).run s = .ok ⟨⟩ s' := rfl

theorem run_modify {ε σ : Type} (f : σ → σ) (s : σ) :
    (modify f : EStateM ε σ PUnit).run s = .ok ⟨⟩ (f s) := rfl

theorem run_throw {ε σ α : Type} (e : ε) (s : σ) :
    (throw e : EStateM ε σ α).run s = .error e s := rfl

theorem run_map {ε σ α β : Type} (f : α → β) (x : EStateM ε σ α) (s : σ) :
    (f <$> x).run s = match x.run s with
      | .ok a s' => .ok (f a) s'
      | .error e s' => .error e s' := by
  show EStateM.Result.map f (x.run s) = _
  cases x.run s <;> rfl

theorem run_seqRight {ε σ α β : Type} (x : EStateM ε σ α) (y : EStateM ε σ β) (s : σ) :
    (x *> y).run s = match x.run s with
      | .ok _ s' => y.run s'
      | .error e s' => .error e s' := by
  show (EStateM.seqRight x fun _ => y).run s = _
  simp only [EStateM.seqRight, EStateM.run]
  cases x s <;> rfl

-- peek at a known token
theorem run_peek (p : PState) (t : Token) (ht : p.tokens[p.current]? = some t) :
    (Parser.peek).run p = .ok t p := by
  simp [Parser.peek, run_bind, run_get, run_pure, ht]

-- advance at a known non-eof token
theorem run_advance (p : PState) (t : Token) (ht : p.tokens[p.current]? = some t)
    (hne : t.t_type ≠ .eof) :
    (Parser.advance).run p = .ok t { p with current := p.current + 1 } := by
  simp [Parser.advance, Parser.tokensLeft, Parser.previous, Parser.peek,
    run_bind, run_get, run_modify, run_pure, run_throw, run_map,
    ht, hne, Nat.add_sub_cancel]

-- any finds no match at a known non-eof token
theorem run_any_no_match (tts : List TokenType) (p : PState) (t : Token)
    (ht : p.tokens[p.current]? = some t) (hne : t.t_type ≠ .eof)
    (hnm : ∀ tt ∈ tts, t.t_type ≠ tt) :
    (Parser.any tts).run p = .ok false p := by
  induction tts with
  | nil => rfl
  | cons tt rest ih =>
      have h1 : t.t_type ≠ tt := hnm tt (by simp)
      have ih' := ih (fun x hx => hnm x (by simp [hx]))
      simp [Parser.any, Parser.check, Parser.tokensLeft, Parser.peek,
        run_bind, run_get, run_pure, run_map, ht, hne, h1, ih']

-- any at the eof token is always false
theorem run_any_eof (tts : List TokenType) (p : PState)
    (ht : p.tokens[p.current]? = some eofTok) :
    (Parser.any tts).run p = .ok false p := by
  induction tts with
  | nil => rfl
  | cons tt rest ih =>
      simp [Parser.any, Parser.check, Parser.tokensLeft, Parser.peek,
        run_bind, run_get, run_pure, run_map, ht, eofTok, ih]

-- any succeeds when the head type matches
theorem run_any_match (tt : TokenType) (rest : List TokenType) (p : PState)
    (t : Token) (ht : p.tokens[p.current]? = some t) (hne : t.t_type ≠ .eof)
    (heq : t.t_type = tt) :
    (Parser.any (tt :: rest)).run p = .ok true p := by
  subst heq
  simp [Parser.any, Parser.check, Parser.tokensLeft, Parser.peek,
    run_bind, run_get, run_pure, run_map, ht, hne]

-- consume at a matching token
theorem run_consume (tt : TokenType) (msg : String) (p : PState) (t : Token)
    (ht : p.tokens[p.current]? = some t) (hne : t.t_type ≠ .eof)
    (heq : t.t_type = tt) :
    (Parser.consume tt msg).run p = .ok t { p with current := p.current + 1 } := by
  simp [Parser.consume, run_bind, run_any_match tt [] p t ht hne heq,
    run_advance p t ht hne]

-- primary at the literal-one token
theorem run_primary_one (m : Nat) (p : PState)
    (ht : p.tokens[p.current]? = some oneTok) :
    (Parser.primary (m + 1)).run p
      = .ok (.literal (.number 1)) { p with current := p.current + 1 } := by
  simp [Parser.primary, run_bind, run_pure, run_peek p oneTok ht,
    run_advance p oneTok ht (by simp [oneTok]), LiteralType.ofToken, oneTok]

-- primary at the f identifier token
theorem run_primary_ident (m : Nat) (p : PState)
    (ht : p.tokens[p.current]? = some fIdentTok) :
    (Parser.primary (m + 1)).run p
      = .ok (.var fIdentTok) { p with current := p.current + 1 } := by
  simp [Parser.primary, Parser.peekType, run_bind, run_pure, run_map,
    run_peek p fIdentTok ht,
    run_advance p fIdentTok ht (by simp [fIdentTok]), LiteralType.ofToken, fIdentTok]

-- the whole expression chain parses exactly the single literal-one token when
-- the following token is a comma or a right parenthesis
set_option maxHeartbeats 1000000 in
theorem run_assignment_one (m : Nat) (p : PState) (nxt : Token)
    (h1 : p.tokens[p.current]? = some oneTok)
    (h2 : p.tokens[p.current + 1]? = some nxt)
    (hnt : nxt.t_type = .singleChar .comma ∨ nxt.t_type = .singleChar .rightParen) :
    (Parser.assignment (m + 12)).run p
      = .ok (.literal (.number 1)) { p with current := p.current + 1 } := by
  have hne : nxt.t_type ≠ .eof := by rcases hnt with h | h <;> simp [h]
  have h2' : ({ p with current := p.current + 1 } : PState).tokens[({ p with current := p.current + 1 } : PState).current]? = some nxt := h2
  have hany : ∀ tts : List TokenType, (∀ tt ∈ tts, nxt.t_type ≠ tt) →
      (Parser.any tts).run { p with current := p.current + 1 }
        = .ok false { p with current := p.current + 1 } :=
    fun tts h => run_any_no_match tts _ nxt h2' hne h
  have hcallLoop : (Parser.callLoop (m + 1) (.literal (.number 1))).run
        { p with current := p.current + 1 }
      = .ok (.literal (.number 1)) { p with current := p.current + 1 } := by
    have h0 := hany [.singleChar .leftParen]
      (by rcases hnt with h | h <;> simp [h])
    simp [Parser.callLoop, run_bind, run_pure, h0]
  have hcall : (Parser.call (m + 2)).run p
      = .ok (.literal (.number 1)) { p with current := p.current + 1 } := by
    simp [Parser.call, run_bind, run_primary_one m p h1, hcallLoop]
  have hunary : (Parser.unary (m + 3)).run p
      = .ok (.literal (.number 1)) { p with current := p.current + 1 } := by
    have h0 : (Parser.any [.singleChar .bang, .singleChar .minus]).run p
        = .ok false p :=
      run_any_no_match _ p oneTok h1 (by simp [oneTok]) (by simp [oneTok])
    simp [Parser.unary, run_bind, h0, hcall]
  have hfactor : (Parser.factor (m + 4)).run p
      = .ok (.literal (.number 1)) { p with current := p.current + 1 } := by
    have h0 := hany [.singleChar .slash, .singleChar .star]
      (by rcases hnt with h | h <;> simp [h])
    simp [Parser.factor, Parser.factorLoop, run_bind, run_pure, hunary, h0]
  have hterm : (Parser.term (m + 5)).run p
      = .ok (.literal (.number 1)) { p with current := p.current + 1 } := by
    have h0 := hany [.singleChar .minus, .singleChar .plus]
      (by rcases hnt with h | h <;> simp [h])
    simp [Parser.term, Parser.termLoop, run_bind, run_pure, hfactor, h0]
  have hcomparison : (Parser.comparison (m + 6)).run p
      = .ok (.literal (.number 1)) { p with current := p.current + 1 } := by
    have h0 := hany [.comparison .greater, .comparison .greaterEqual,
      .comparison .less, .comparison .lessEqual]
      (by rcases hnt with h | h <;> simp [h])
    simp [Parser.comparison, Parser.comparisonLoop, run_bind, run_pure,
      hterm, h0]
  have hequality : (Parser.equality (m + 7)).run p
      = .ok (.literal (.number 1)) { p with current := p.current + 1 } := by
    have h0 := hany [.comparison .bangEqual, .comparison .equalEqual]
      (by rcases hnt with h | h <;> simp [h])
    simp [Parser.equality, Parser.equalityLoop, run_bind, run_pure,
      hcomparison, h0]
  have hexpression : (Parser.expression (m + 8)).run p
      = .ok (.literal (.number 1)) { p with current := p.current + 1 } := by
    simp [Parser.expression, hequality]
  have hlogicalAnd : (Parser.logicalAnd (m + 9)).run p
      = .ok (.literal (.number 1)) { p with current := p.current + 1 } := by
    have h0 := hany [.keyword .kAnd]
      (by rcases hnt with h | h <;> simp [h])
    simp [Parser.logicalAnd, Parser.logicalAndLoop, run_bind, run_pure,
      hexpression, h0]
  have hlogicalOr : (Parser.logicalOr (m + 10)).run p
      = .ok (.literal (.number 1)) { p with current := p.current + 1 } := by
    have h0 := hany [.keyword .kOr]
      (by rcases hnt with h | h <;> simp [h])
    simp [Parser.logicalOr, Parser.logicalOrLoop, run_bind, run_pure,
      hlogicalAnd, h0]
  have hternary : (Parser.ternary (m + 11)).run p
      = .ok (.literal (.number 1)) { p with current := p.current + 1 } := by
    have h0 := hany [.singleChar .question]
      (by rcases hnt with h | h <;> simp [h])
    simp [Parser.ternary, Parser.ternaryLoop, run_bind, run_pure,
      hlogicalOr, h0]
  have h0 := hany [.singleChar .equal]
    (by rcases hnt with h | h <;> simp [h])
  simp [Parser.assignment, run_bind, run_pure, hternary, h0]

theorem getElem?_append_cons (pre : List Token) (x : Token) (r : List Token) :
    (pre ++ x :: r)[pre.length]? = some x := by
  rw [List.getElem?_append_right (le_refl _)]
  simp

theorem getElem?_append_cons1 (pre : List Token) (x y : Token) (r : List Token) :
    (pre ++ x :: y :: r)[pre.length + 1]? = some y := by
  rw [List.getElem?_append_right (by omega)]
  simp

set_option maxHeartbeats 2000000 in
theorem finishCallLoop_run : ∀ (k m : Nat) (acc : List Expr) (pre : List Token),
    1 ≤ k → acc.length ≤ 255 →
    (Parser.finishCallLoop (k + m + 13) acc).run
        ⟨pre ++ argTailToks k, pre.length⟩
      = if acc.length + k ≤ 255 then
          .ok (acc ++ List.replicate k (.literal (.number 1)))
            ⟨pre ++ argTailToks k, pre.length + (2 * k - 1)⟩
        else
          .error .tooManyFuncArg
            ⟨pre ++ argTailToks k, pre.length + 2 * (255 - acc.length)⟩
  | 0, _, _, _, hk, _ => by omega
  | 1, m, acc, pre, _, hacc => by
      show (Parser.finishCallLoop ((1 + m + 12) + 1) acc).run _ = _
      have h1 : (pre ++ argTailToks 1)[pre.length]? = some oneTok := by
        simp only [argTailToks]
        exact getElem?_append_cons pre oneTok _
      have h2 : (pre ++ argTailToks 1)[pre.length + 1]? = some rparenTok := by
        simp only [argTailToks]
        exact getElem?_append_cons1 pre oneTok rparenTok _
      have hasg := run_assignment_one (1 + m) ⟨pre ++ argTailToks 1, pre.length⟩
        rparenTok h1 h2 (Or.inr (by simp [rparenTok]))
      have hcomma : (Parser.any [.singleChar .comma]).run
          ⟨pre ++ argTailToks 1, pre.length + 1⟩
          = .ok false ⟨pre ++ argTailToks 1, pre.length + 1⟩ :=
        run_any_no_match _ _ rparenTok h2 (by simp [rparenTok])
          (by simp [rparenTok])
      generalize hg : 1 + m + 12 = F at hasg ⊢
      by_cases hfull : acc.length ≥ 255
      · have h255 : acc.length = 255 := by omega
        have hnotok : ¬ (acc.length + 1 ≤ 255) := by omega
        simp [Parser.finishCallLoop, run_bind, run_throw, FUNCTION_ARG_LIMIT,
          hfull, hnotok, h255]
      · have hok : acc.length + 1 ≤ 255 := by omega
        simp [Parser.finishCallLoop, run_bind, run_pure, FUNCTION_ARG_LIMIT,
          hfull, hasg, hcomma, hok, List.replicate]
  | (j + 2), m, acc, pre, _, hacc => by
      show (Parser.finishCallLoop (((j + 2) + m + 12) + 1) acc).run _ = _
      have htail : pre ++ argTailToks (j + 2)
          = (pre ++ [oneTok, commaTok]) ++ argTailToks (j + 1) := by
        show pre ++ (oneTok :: commaTok :: argTailToks (j + 1)) = _
        simp
      have h1 : (pre ++ argTailToks (j + 2))[pre.length]? = some oneTok := by
        show (pre ++ oneTok :: commaTok :: argTailToks (j + 1))[pre.length]?
          = some oneTok
        exact getElem?_append_cons pre oneTok _
      have h2 : (pre ++ argTailToks (j + 2))[pre.length + 1]? = some commaTok := by
        show (pre ++ oneTok :: commaTok :: argTailToks (j + 1))[pre.length + 1]?
          = some commaTok
        exact getElem?_append_cons1 pre oneTok commaTok _
      by_cases hfull : acc.length ≥ 255
      · have h255 : acc.length = 255 := by omega
        have hnotok : ¬ (acc.length + (j + 2) ≤ 255) := by omega
        generalize hg : (j + 2) + m + 12 = F
        simp [Parser.finishCallLoop, run_bind, run_throw, FUNCTION_ARG_LIMIT,
          hfull, hnotok, h255]
      · have hasg := run_assignment_one ((j + 2) + m)
          ⟨pre ++ argTailToks (j + 2), pre.length⟩
          commaTok h1 h2 (Or.inl (by simp [commaTok]))
        have hcomma : (Parser.any [.singleChar .comma]).run
            ⟨pre ++ argTailToks (j + 2), pre.length + 1⟩
            = .ok true ⟨pre ++ argTailToks (j + 2), pre.length + 1⟩ :=
          run_any_match _ [] _ commaTok h2 (by simp [commaTok]) (by simp [commaTok])
        have hadv : (Parser.advance).run ⟨pre ++ argTailToks (j + 2), pre.length + 1⟩
            = .ok commaTok ⟨pre ++ argTailToks (j + 2), pre.length + 1 + 1⟩ :=
          run_advance _ commaTok h2 (by simp [commaTok])
        have hih := finishCallLoop_run (j + 1) m (acc ++ [Expr.literal (.number 1)])
          (pre ++ [oneTok, commaTok]) (by omega) (by simp; omega)
        rw [← htail] at hih
        have hplen : (pre ++ [oneTok, commaTok]).length = pre.length + 1 + 1 := by
          simp
        rw [hplen] at hih
        rw [show (j + 1) + m + 13 = (j + 2) + m + 12 from by omega] at hih
        simp only [List.length_append, List.length_cons, List.length_nil,
          Nat.zero_add] at hih
        generalize hg : (j + 2) + m + 12 = F at hasg hih ⊢
        dsimp only at hasg
        have hnotfull : ¬ (255 ≤ acc.length) := hfull
        simp only [Parser.finishCallLoop, run_bind, run_throw, run_pure,
          FUNCTION_ARG_LIMIT, ge_iff_le, hnotfull, if_false, if_true, hasg,
          hcomma, hadv, hih]
        by_cases hcase : acc.length + (j + 2) ≤ 255
        · rw [if_pos (show acc.length + 1 + (j + 1) ≤ 255 from by omega),
            if_pos hcase]
          have e1 : (acc ++ [Expr.literal (.number 1)])
                ++ List.replicate (j + 1) (Expr.literal (.number 1))
              = acc ++ List.replicate (j + 2) (Expr.literal (.number 1)) := by
            simp [List.replicate_succ]
          have e2 : pre.length + 1 + 1 + (2 * (j + 1) - 1)
              = pre.length + (2 * (j + 2) - 1) := by omega
          rw [e1, e2]
        · rw [if_neg (show ¬ (acc.length + 1 + (j + 1) ≤ 255) from by omega),
            if_neg hcase]
          have e3 : pre.length + 1 + 1 + 2 * (255 - (acc.length + 1))
              = pre.length + 2 * (255 - acc.length) := by omega
          rw [e3]

theorem getElem?_append_at (pre r : List Token) (i : Nat) :
    (pre ++ r)[pre.length + i]? = r[i]? := by
  rw [List.getElem?_append_right (by omega)]
  simp

theorem argTail_facts : ∀ (k : Nat), 1 ≤ k →
    (argTailToks k)[0]? = some oneTok ∧
    (argTailToks k)[2 * k - 1]? = some rparenTok ∧
    (argTailToks k)[2 * k]? = some eofTok
  | 0, hk => by omega
  | 1, _ => by refine ⟨rfl, rfl, rfl⟩
  | (j + 2), _ => by
      have ih := argTail_facts (j + 1) (by omega)
      refine ⟨rfl, ?_, ?_⟩
      · show (oneTok :: commaTok :: argTailToks (j + 1))[2 * (j + 2) - 1]?
          = some rparenTok
        rw [show 2 * (j + 2) - 1 = (2 * (j + 1) - 1) + 1 + 1 from by omega]
        rw [List.getElem?_cons_succ, List.getElem?_cons_succ]
        exact ih.2.1
      · show (oneTok :: commaTok :: argTailToks (j + 1))[2 * (j + 2)]?
          = some eofTok
        rw [show 2 * (j + 2) = (2 * (j + 1)) + 1 + 1 from by omega]
        rw [List.getElem?_cons_succ, List.getElem?_cons_succ]
        exact ih.2.2

-- propagate a call result upward through the operator-production loops when
-- the token at the resulting position is eof
set_option maxHeartbeats 1000000 in
theorem run_sep_from_call (m : Nat) (p0 p : PState) (e : Expr)
    (hcall : (Parser.call (m + 2)).run p0 = .ok e p)
    (hun : (Parser.any [.singleChar .bang, .singleChar .minus]).run p0
      = .ok false p0)
    (ht : p.tokens[p.current]? = some eofTok) :
    (Parser.separator (m + 13)).run p0 = .ok e p := by
  have hany : ∀ tts : List TokenType, (Parser.any tts).run p = .ok false p :=
    fun tts => run_any_eof tts p ht
  have hunary : (Parser.unary (m + 3)).run p0 = .ok e p := by
    simp [Parser.unary, run_bind, hun, hcall]
  have hfl : (Parser.factorLoop (m + 3) e).run p = .ok e p := by
    show (Parser.factorLoop (m + 2 + 1) e).run p = .ok e p
    generalize m + 2 = F
    simp [Parser.factorLoop, run_bind, run_pure, hany]
  have hfactor : (Parser.factor (m + 4)).run p0 = .ok e p := by
    simp [Parser.factor, run_bind, hunary, hfl]
  have htl : (Parser.termLoop (m + 4) e).run p = .ok e p := by
    show (Parser.termLoop (m + 3 + 1) e).run p = .ok e p
    generalize m + 3 = F
    simp [Parser.termLoop, run_bind, run_pure, hany]
  have hterm : (Parser.term (m + 5)).run p0 = .ok e p := by
    simp [Parser.term, run_bind, hfactor, htl]
  have hcl : (Parser.comparisonLoop (m + 5) e).run p = .ok e p := by
    show (Parser.comparisonLoop (m + 4 + 1) e).run p = .ok e p
    generalize m + 4 = F
    simp [Parser.comparisonLoop, run_bind, run_pure, hany]
  have hcomparison : (Parser.comparison (m + 6)).run p0 = .ok e p := by
    simp [Parser.comparison, run_bind, hterm, hcl]
  have hel : (Parser.equalityLoop (m + 6) e).run p = .ok e p := by
    show (Parser.equalityLoop (m + 5 + 1) e).run p = .ok e p
    generalize m + 5 = F
    simp [Parser.equalityLoop, run_bind, run_pure, hany]
  have hequality : (Parser.equality (m + 7)).run p0 = .ok e p := by
    simp [Parser.equality, run_bind, hcomparison, hel]
  have hexpression : (Parser.expression (m + 8)).run p0 = .ok e p := by
    simp [Parser.expression, hequality]
  have hal : (Parser.logicalAndLoop (m + 8) e).run p = .ok e p := by
    show (Parser.logicalAndLoop (m + 7 + 1) e).run p = .ok e p
    generalize m + 7 = F
    simp [Parser.logicalAndLoop, run_bind, run_pure, hany]
  have hlogicalAnd : (Parser.logicalAnd (m + 9)).run p0 = .ok e p := by
    simp [Parser.logicalAnd, run_bind, hexpression, hal]
  have hol : (Parser.logicalOrLoop (m + 9) e).run p = .ok e p := by
    show (Parser.logicalOrLoop (m + 8 + 1) e).run p = .ok e p
    generalize m + 8 = F
    simp [Parser.logicalOrLoop, run_bind, run_pure, hany]
  have hlogicalOr : (Parser.logicalOr (m + 10)).run p0 = .ok e p := by
    simp [Parser.logicalOr, run_bind, hlogicalAnd, hol]
  have hyl : (Parser.ternaryLoop (m + 10) e).run p = .ok e p := by
    show (Parser.ternaryLoop (m + 9 + 1) e).run p = .ok e p
    generalize m + 9 = F
    simp [Parser.ternaryLoop, run_bind, run_pure, hany]
  have hternary : (Parser.ternary (m + 11)).run p0 = .ok e p := by
    simp [Parser.ternary, run_bind, hlogicalOr, hyl]
  have hassignment : (Parser.assignment (m + 12)).run p0 = .ok e p := by
    show (Parser.assignment (m + 11 + 1)).run p0 = .ok e p
    generalize hg : m + 11 = F at hternary ⊢
    simp [Parser.assignment, run_bind, run_pure, hternary, hany]
  have hsl : (Parser.separatorLoop (m + 12) e).run p = .ok e p := by
    show (Parser.separatorLoop (m + 11 + 1) e).run p = .ok e p
    generalize m + 11 = F
    simp [Parser.separatorLoop, run_bind, run_pure, hany]
  simp [Parser.separator, run_bind, hassignment, hsl]

-- propagate a call error upward to the separator entry point
set_option maxHeartbeats 1000000 in
theorem run_sep_from_call_err (m : Nat) (p0 p : PState) (err : ParserError)
    (hcall : (Parser.call (m + 2)).run p0 = .error err p)
    (hun : (Parser.any [.singleChar .bang, .singleChar .minus]).run p0
      = .ok false p0) :
    (Parser.separator (m + 13)).run p0 = .error err p := by
  have hunary : (Parser.unary (m + 3)).run p0 = .error err p := by
    simp [Parser.unary, run_bind, hun, hcall]
  have hfactor : (Parser.factor (m + 4)).run p0 = .error err p := by
    simp [Parser.factor, run_bind, hunary]
  have hterm : (Parser.term (m + 5)).run p0 = .error err p := by
    simp [Parser.term, run_bind, hfactor]
  have hcomparison : (Parser.comparison (m + 6)).run p0 = .error err p := by
    simp [Parser.comparison, run_bind, hterm]
  have hequality : (Parser.equality (m + 7)).run p0 = .error err p := by
    simp [Parser.equality, run_bind, hcomparison]
  have hexpression : (Parser.expression (m + 8)).run p0 = .error err p := by
    simp [Parser.expression, hequality]
  have hlogicalAnd : (Parser.logicalAnd (m + 9)).run p0 = .error err p := by
    simp [Parser.logicalAnd, run_bind, hexpression]
  have hlogicalOr : (Parser.logicalOr (m + 10)).run p0 = .error err p := by
    simp [Parser.logicalOr, run_bind, hlogicalAnd]
  have hternary : (Parser.ternary (m + 11)).run p0 = .error err p := by
    simp [Parser.ternary, run_bind, hlogicalOr]
  have hassignment : (Parser.assignment (m + 12)).run p0 = .error err p := by
    simp [Parser.assignment, run_bind, hternary]
  simp [Parser.separator, run_bind, hassignment]

-- position facts inside callToks relative to the two-token prefix
theorem callToks_at (n i : Nat) :
    (callToks n)[2 + i]? = (argTailToks n)[i]? := by
  show ([fIdentTok, lparenTok] ++ argTailToks n)[2 + i]? = _
  have h := getElem?_append_at [fIdentTok, lparenTok] (argTailToks n) i
  simpa using h

-- a zero-argument call parses to a Call with an empty argument list
set_option maxHeartbeats 1000000 in
theorem run_call_callToks0 (m : Nat) :
    (Parser.call (m + 16)).run ⟨callToks 0, 0⟩
      = .ok (.call (.var fIdentTok) rparenTok []) ⟨callToks 0, 3⟩ := by
  have h0 : (callToks 0)[0]? = some fIdentTok := rfl
  have h1 : (callToks 0)[1]? = some lparenTok := rfl
  have h2 : (callToks 0)[2]? = some rparenTok := rfl
  have h3 : (callToks 0)[3]? = some eofTok := rfl
  have hprim : (Parser.primary (m + 15)).run ⟨callToks 0, 0⟩
      = .ok (.var fIdentTok) ⟨callToks 0, 1⟩ :=
    run_primary_ident (m + 14) _ h0
  have hanylp : (Parser.any [.singleChar .leftParen]).run ⟨callToks 0, 1⟩
      = .ok true ⟨callToks 0, 1⟩ :=
    run_any_match _ [] _ lparenTok h1 (by simp [lparenTok]) rfl
  have hadv : (Parser.advance).run ⟨callToks 0, 1⟩
      = .ok lparenTok ⟨callToks 0, 2⟩ :=
    run_advance _ lparenTok h1 (by simp [lparenTok])
  have hanyrp : (Parser.any [.singleChar .rightParen]).run ⟨callToks 0, 2⟩
      = .ok true ⟨callToks 0, 2⟩ :=
    run_any_match _ [] _ rparenTok h2 (by simp [rparenTok]) rfl
  have hcons : (Parser.consume (.singleChar .rightParen)
        "Expect ')' after expression").run ⟨callToks 0, 2⟩
      = .ok rparenTok ⟨callToks 0, 3⟩ :=
    run_consume _ _ _ rparenTok h2 (by simp [rparenTok]) rfl
  have hfin : (Parser.finishCall (m + 14) (.var fIdentTok)).run ⟨callToks 0, 2⟩
      = .ok (.call (.var fIdentTok) rparenTok []) ⟨callToks 0, 3⟩ := by
    show (Parser.finishCall ((m + 13) + 1) _).run _ = _
    generalize m + 13 = F
    simp [Parser.finishCall, run_bind, run_pure, hanyrp, hcons]
  have hcl2 : (Parser.callLoop (m + 14)
        (.call (.var fIdentTok) rparenTok [])).run ⟨callToks 0, 3⟩
      = .ok (.call (.var fIdentTok) rparenTok []) ⟨callToks 0, 3⟩ := by
    show (Parser.callLoop ((m + 13) + 1) _).run _ = _
    generalize m + 13 = F
    simp [Parser.callLoop, run_bind, run_pure,
      run_any_eof [.singleChar .leftParen] ⟨callToks 0, 3⟩ h3]
  have hcl : (Parser.callLoop (m + 15) (.var fIdentTok)).run ⟨callToks 0, 1⟩
      = .ok (.call (.var fIdentTok) rparenTok []) ⟨callToks 0, 3⟩ := by
    show (Parser.callLoop ((m + 14) + 1) _).run _ = _
    generalize hg : m + 14 = F at hfin hcl2 ⊢
    simp [Parser.callLoop, run_bind, hanylp, hadv, hfin, hcl2]
  show (Parser.call ((m + 15) + 1)).run _ = _
  generalize hg : m + 15 = F at hprim hcl ⊢
  simp [Parser.call, run_bind, hprim, hcl]

-- a call with n >= 1 one-literal arguments: ok within the limit, the
-- TooManyFuncArg parser error beyond it
set_option maxHeartbeats 1000000 in
theorem run_call_callToks (n m : Nat) (hn : 1 ≤ n) :
    (Parser.call (n + m + 16)).run ⟨callToks n, 0⟩
      = if n ≤ 255 then
          .ok (.call (.var fIdentTok) rparenTok
              (List.replicate n (.literal (.number 1))))
            ⟨callToks n, 2 * n + 2⟩
        else .error .tooManyFuncArg ⟨callToks n, 512⟩ := by
  obtain ⟨hone, hrp, heof⟩ := argTail_facts n hn
  have h0 : (callToks n)[0]? = some fIdentTok := by simp [callToks]
  have h1 : (callToks n)[1]? = some lparenTok := by simp [callToks]
  have h2 : (callToks n)[2]? = some oneTok := (callToks_at n 0).trans hone
  have hrp' : (callToks n)[2 * n + 1]? = some rparenTok := by
    have h := callToks_at n (2 * n - 1)
    rw [show 2 + (2 * n - 1) = 2 * n + 1 from by omega] at h
    exact h.trans hrp
  have heof' : (callToks n)[2 * n + 2]? = some eofTok := by
    have h := callToks_at n (2 * n)
    rw [show 2 + 2 * n = 2 * n + 2 from by omega] at h
    exact h.trans heof
  have hprim : (Parser.primary (n + m + 15)).run ⟨callToks n, 0⟩
      = .ok (.var fIdentTok) ⟨callToks n, 1⟩ :=
    run_primary_ident (n + m + 14) _ h0
  have hanylp : (Parser.any [.singleChar .leftParen]).run ⟨callToks n, 1⟩
      = .ok true ⟨callToks n, 1⟩ :=
    run_any_match _ [] _ lparenTok h1 (by simp [lparenTok]) rfl
  have hadv : (Parser.advance).run ⟨callToks n, 1⟩
      = .ok lparenTok ⟨callToks n, 2⟩ :=
    run_advance _ lparenTok h1 (by simp [lparenTok])
  have hanyrp : (Parser.any [.singleChar .rightParen]).run ⟨callToks n, 2⟩
      = .ok false ⟨callToks n, 2⟩ :=
    run_any_no_match _ _ oneTok h2 (by simp [oneTok]) (by simp [oneTok])
  have hloop : (Parser.finishCallLoop (n + m + 13) []).run ⟨callToks n, 2⟩
      = if n ≤ 255 then
          .ok (List.replicate n (.literal (.number 1)))
            ⟨callToks n, 2 + (2 * n - 1)⟩
        else .error .tooManyFuncArg ⟨callToks n, 512⟩ := by
    have h := finishCallLoop_run n m [] [fIdentTok, lparenTok] hn (by simp)
    simpa [callToks] using h
  by_cases h255 : n ≤ 255
  · rw [if_pos h255]
    rw [if_pos h255] at hloop
    have hcons : (Parser.consume (.singleChar .rightParen)
          "Expect ')' after expression").run ⟨callToks n, 2 + (2 * n - 1)⟩
        = .ok rparenTok ⟨callToks n, 2 * n + 2⟩ := by
      have h := run_consume (.singleChar .rightParen)
        "Expect ')' after expression" ⟨callToks n, 2 * n + 1⟩ rparenTok hrp'
        (by simp [rparenTok]) rfl
      rw [show (2 : Nat) + (2 * n - 1) = 2 * n + 1 from by omega]
      exact h
    have hfin : (Parser.finishCall (n + m + 14) (.var fIdentTok)).run
          ⟨callToks n, 2⟩
        = .ok (.call (.var fIdentTok) rparenTok
            (List.replicate n (.literal (.number 1)))) ⟨callToks n, 2 * n + 2⟩ := by
      show (Parser.finishCall ((n + m + 13) + 1) _).run _ = _
      generalize hg : n + m + 13 = F at hloop ⊢
      simp [Parser.finishCall, run_bind, run_pure, hanyrp, hloop, hcons]
    have hcl2 : (Parser.callLoop (n + m + 14)
          (.call (.var fIdentTok) rparenTok
            (List.replicate n (.literal (.number 1))))).run
          ⟨callToks n, 2 * n + 2⟩
        = .ok (.call (.var fIdentTok) rparenTok
            (List.replicate n (.literal (.number 1)))) ⟨callToks n, 2 * n + 2⟩ := by
      show (Parser.callLoop ((n + m + 13) + 1) _).run _ = _
      generalize n + m + 13 = F
      simp [Parser.callLoop, run_bind, run_pure,
        run_any_eof [.singleChar .leftParen] ⟨callToks n, 2 * n + 2⟩ heof']
    have hcl : (Parser.callLoop (n + m + 15) (.var fIdentTok)).run
          ⟨callToks n, 1⟩
        = .ok (.call (.var fIdentTok) rparenTok
            (List.replicate n (.literal (.number 1)))) ⟨callToks n, 2 * n + 2⟩ := by
      show (Parser.callLoop ((n + m + 14) + 1) _).run _ = _
      generalize hg : n + m + 14 = F at hfin hcl2 ⊢
      simp [Parser.callLoop, run_bind, hanylp, hadv, hfin, hcl2]
    show (Parser.call ((n + m + 15) + 1)).run _ = _
    generalize hg : n + m + 15 = F at hprim hcl ⊢
    simp [Parser.call, run_bind, hprim, hcl]
  · rw [if_neg h255]
    rw [if_neg h255] at hloop
    have hfin : (Parser.finishCall (n + m + 14) (.var fIdentTok)).run
          ⟨callToks n, 2⟩
        = .error .tooManyFuncArg ⟨callToks n, 512⟩ := by
      show (Parser.finishCall ((n + m + 13) + 1) _).run _ = _
      generalize hg : n + m + 13 = F at hloop ⊢
      simp [Parser.finishCall, run_bind, run_pure, hanyrp, hloop]
    have hcl : (Parser.callLoop (n + m + 15) (.var fIdentTok)).run
          ⟨callToks n, 1⟩
        = .error .tooManyFuncArg ⟨callToks n, 512⟩ := by
      show (Parser.callLoop ((n + m + 14) + 1) _).run _ = _
      generalize hg : n + m + 14 = F at hfin ⊢
      simp [Parser.callLoop, run_bind, hanylp, hadv, hfin]
    show (Parser.call ((n + m + 15) + 1)).run _ = _
    generalize hg : n + m + 15 = F at hprim hcl ⊢
    simp [Parser.call, run_bind, hprim, hcl]

set_option maxHeartbeats 1000000 in
theorem fdParamsLoop_run : ∀ (k m : Nat) (acc : List Token) (pre : List Token),
    1 ≤ k → acc.length ≤ 255 →
    (Parser.fdParamsLoop (k + m + 1) acc).run
        ⟨pre ++ paramTailToks k, pre.length⟩
      = if acc.length + k ≤ 255 then
          .ok (acc ++ List.replicate k paramTok)
            ⟨pre ++ paramTailToks k, pre.length + (2 * k - 1)⟩
        else
          .error .tooManyFuncArg
            ⟨pre ++ paramTailToks k, pre.length + 2 * (255 - acc.length)⟩
  | 0, _, _, _, hk, _ => by omega
  | 1, m, acc, pre, _, hacc => by
      show (Parser.fdParamsLoop ((1 + m) + 1) acc).run _ = _
      have h1 : (pre ++ paramTailToks 1)[pre.length]? = some paramTok := by
        simp only [paramTailToks]
        exact getElem?_append_cons pre paramTok _
      have h2 : (pre ++ paramTailToks 1)[pre.length + 1]? = some rparenTok := by
        simp only [paramTailToks]
        exact getElem?_append_cons1 pre paramTok rparenTok _
      have hcons : (Parser.consume .ident
            "Expected identifier as function parameter").run
            ⟨pre ++ paramTailToks 1, pre.length⟩
          = .ok paramTok ⟨pre ++ paramTailToks 1, pre.length + 1⟩ :=
        run_consume _ _ _ paramTok h1 (by simp [paramTok]) rfl
      have hcomma : (Parser.any [.singleChar .comma]).run
          ⟨pre ++ paramTailToks 1, pre.length + 1⟩
          = .ok false ⟨pre ++ paramTailToks 1, pre.length + 1⟩ :=
        run_any_no_match _ _ rparenTok h2 (by simp [rparenTok])
          (by simp [rparenTok])
      generalize hg : 1 + m = F at hcons ⊢
      by_cases hfull : acc.length ≥ 255
      · have h255 : acc.length = 255 := by omega
        have hnotok : ¬ (acc.length + 1 ≤ 255) := by omega
        simp [Parser.fdParamsLoop, run_bind, run_throw, FUNCTION_ARG_LIMIT,
          hfull, hnotok, h255]
      · have hok : acc.length + 1 ≤ 255 := by omega
        simp [Parser.fdParamsLoop, run_bind, run_pure, FUNCTION_ARG_LIMIT,
          hfull, hcons, hcomma, hok, List.replicate]
  | (j + 2), m, acc, pre, _, hacc => by
      show (Parser.fdParamsLoop (((j + 2) + m) + 1) acc).run _ = _
      have htail : pre ++ paramTailToks (j + 2)
          = (pre ++ [paramTok, commaTok]) ++ paramTailToks (j + 1) := by
        show pre ++ (paramTok :: commaTok :: paramTailToks (j + 1)) = _
        simp
      have h1 : (pre ++ paramTailToks (j + 2))[pre.length]? = some paramTok := by
        show (pre ++ paramTok :: commaTok :: paramTailToks (j + 1))[pre.length]?
          = some paramTok
        exact getElem?_append_cons pre paramTok _
      have h2 : (pre ++ paramTailToks (j + 2))[pre.length + 1]?
          = some commaTok := by
        show (pre ++ paramTok :: commaTok
          :: paramTailToks (j + 1))[pre.length + 1]? = some commaTok
        exact getElem?_append_cons1 pre paramTok commaTok _
      by_cases hfull : acc.length ≥ 255
      · have h255 : acc.length = 255 := by omega
        have hnotok : ¬ (acc.length + (j + 2) ≤ 255) := by omega
        generalize hg : (j + 2) + m = F
        simp [Parser.fdParamsLoop, run_bind, run_throw, FUNCTION_ARG_LIMIT,
          hfull, hnotok, h255]
      · have hcons : (Parser.consume .ident
              "Expected identifier as function parameter").run
              ⟨pre ++ paramTailToks (j + 2), pre.length⟩
            = .ok paramTok ⟨pre ++ paramTailToks (j + 2), pre.length + 1⟩ :=
          run_consume _ _ _ paramTok h1 (by simp [paramTok]) rfl
        have hcomma : (Parser.any [.singleChar .comma]).run
            ⟨pre ++ paramTailToks (j + 2), pre.length + 1⟩
            = .ok true ⟨pre ++ paramTailToks (j + 2), pre.length + 1⟩ :=
          run_any_match _ [] _ commaTok h2 (by simp [commaTok])
            (by simp [commaTok])
        have hadv : (Parser.advance).run
            ⟨pre ++ paramTailToks (j + 2), pre.length + 1⟩
            = .ok commaTok
              ⟨pre ++ paramTailToks (j + 2), pre.length + 1 + 1⟩ :=
          run_advance _ commaTok h2 (by simp [commaTok])
        have hih := fdParamsLoop_run (j + 1) m (acc ++ [paramTok])
          (pre ++ [paramTok, commaTok]) (by omega) (by simp; omega)
        rw [← htail] at hih
        have hplen : (pre ++ [paramTok, commaTok]).length = pre.length + 1 + 1 := by
          simp
        rw [hplen] at hih
        rw [show (j + 1) + m + 1 = (j + 2) + m from by omega] at hih
        simp only [List.length_append, List.length_cons, List.length_nil,
          Nat.zero_add] at hih
        generalize hg : (j + 2) + m = F at hcons hih ⊢
        have hnotfull : ¬ (255 ≤ acc.length) := hfull
        simp only [Parser.fdParamsLoop, run_bind, run_throw, run_pure,
          FUNCTION_ARG_LIMIT, ge_iff_le, hnotfull, if_false, if_true, hcons,
          hcomma, hadv, hih]
        by_cases hcase : acc.length + (j + 2) ≤ 255
        · rw [if_pos (show acc.length + 1 + (j + 1) ≤ 255 from by omega),
            if_pos hcase]
          have e1 : (acc ++ [paramTok]) ++ List.replicate (j + 1) paramTok
              = acc ++ List.replicate (j + 2) paramTok := by
            simp [List.replicate_succ]
          have e2 : pre.length + 1 + 1 + (2 * (j + 1) - 1)
              = pre.length + (2 * (j + 2) - 1) := by omega
          rw [e1, e2]
        · rw [if_neg (show ¬ (acc.length + 1 + (j + 1) ≤ 255) from by omega),
            if_neg hcase]
          have e3 : pre.length + 1 + 1 + 2 * (255 - (acc.length + 1))
              = pre.length + 2 * (255 - acc.length) := by omega
          rw [e3]

theorem paramTail_facts : ∀ (k : Nat), 1 ≤ k →
    (paramTailToks k)[0]? = some paramTok ∧
    (paramTailToks k)[2 * k - 1]? = some rparenTok ∧
    (paramTailToks k)[2 * k]? = some lbraceTok ∧
    (paramTailToks k)[2 * k + 1]? = some rbraceTok ∧
    (paramTailToks k)[2 * k + 2]? = some eofTok
  | 0, hk => by omega
  | 1, _ => by refine ⟨rfl, rfl, rfl, rfl, rfl⟩
  | (j + 2), _ => by
      have ih := paramTail_facts (j + 1) (by omega)
      refine ⟨rfl, ?_, ?_, ?_, ?_⟩
      · show (paramTok :: commaTok :: paramTailToks (j + 1))[2 * (j + 2) - 1]?
          = some rparenTok
        rw [show 2 * (j + 2) - 1 = (2 * (j + 1) - 1) + 1 + 1 from by omega]
        rw [List.getElem?_cons_succ, List.getElem?_cons_succ]
        exact ih.2.1
      · show (paramTok :: commaTok :: paramTailToks (j + 1))[2 * (j + 2)]?
          = some lbraceTok
        rw [show 2 * (j + 2) = (2 * (j + 1)) + 1 + 1 from by omega]
        rw [List.getElem?_cons_succ, List.getElem?_cons_succ]
        exact ih.2.2.1
      · show (paramTok :: commaTok :: paramTailToks (j + 1))[2 * (j + 2) + 1]?
          = some rbraceTok
        rw [show 2 * (j + 2) + 1 = (2 * (j + 1) + 1) + 1 + 1 from by omega]
        rw [List.getElem?_cons_succ, List.getElem?_cons_succ]
        exact ih.2.2.2.1
      · show (paramTok :: commaTok :: paramTailToks (j + 1))[2 * (j + 2) + 2]?
          = some eofTok
        rw [show 2 * (j + 2) + 2 = (2 * (j + 1) + 2) + 1 + 1 from by omega]
        rw [List.getElem?_cons_succ, List.getElem?_cons_succ]
        exact ih.2.2.2.2

theorem funToks_at (n i : Nat) :
    (funToks n)[2 + i]? = (paramTailToks n)[i]? := by
  show ([fIdentTok, lparenTok] ++ paramTailToks n)[2 + i]? = _
  have h := getElem?_append_at [fIdentTok, lparenTok] (paramTailToks n) i
  simpa using h

-- a zero-parameter function declaration parses to an empty parameter list
set_option maxHeartbeats 1000000 in
theorem run_functionDeclaration_funToks0 (m : Nat) :
    (Parser.functionDeclaration (m + 27) .free).run ⟨funToks 0, 0⟩
      = .ok (.function fIdentTok [] []) ⟨funToks 0, 5⟩ := by
  have h0 : (funToks 0)[0]? = some fIdentTok := rfl
  have h1 : (funToks 0)[1]? = some lparenTok := rfl
  have h2 : (funToks 0)[2]? = some rparenTok := rfl
  have h3 : (funToks 0)[3]? = some lbraceTok := rfl
  have h4 : (funToks 0)[4]? = some rbraceTok := rfl
  have hcons1 : (Parser.consume .ident
        "Expected identifier as function name").run ⟨funToks 0, 0⟩
      = .ok fIdentTok ⟨funToks 0, 1⟩ :=
    run_consume _ _ _ fIdentTok h0 (by simp [fIdentTok]) rfl
  have hcons2 : (Parser.consume (.singleChar .leftParen)
        "Expect '(' after `fun` identifier").run ⟨funToks 0, 1⟩
      = .ok lparenTok ⟨funToks 0, 2⟩ :=
    run_consume _ _ _ lparenTok h1 (by simp [lparenTok]) rfl
  have hanyrp : (Parser.any [.singleChar .rightParen]).run ⟨funToks 0, 2⟩
      = .ok true ⟨funToks 0, 2⟩ :=
    run_any_match _ [] _ rparenTok h2 (by simp [rparenTok]) rfl
  have hconsrp : (Parser.consume (.singleChar .rightParen)
        "Expect ')' after expression").run ⟨funToks 0, 2⟩
      = .ok rparenTok ⟨funToks 0, 3⟩ :=
    run_consume _ _ _ rparenTok h2 (by simp [rparenTok]) rfl
  have hconslb : (Parser.consume (.singleChar .leftBrace)
        "Expect '\x7b' after `fun` to define it's body").run ⟨funToks 0, 3⟩
      = .ok lbraceTok ⟨funToks 0, 4⟩ :=
    run_consume _ _ _ lbraceTok h3 (by simp [lbraceTok]) rfl
  have hanyrb : (Parser.any [.singleChar .rightBrace]).run ⟨funToks 0, 4⟩
      = .ok true ⟨funToks 0, 4⟩ :=
    run_any_match _ [] _ rbraceTok h4 (by simp [rbraceTok]) rfl
  have hconsrb : (Parser.consume (.singleChar .rightBrace)
        "Expect '\x7d' to close the block scope").run ⟨funToks 0, 4⟩
      = .ok rbraceTok ⟨funToks 0, 5⟩ :=
    run_consume _ _ _ rbraceTok h4 (by simp [rbraceTok]) rfl
  have hblockLoop : (Parser.blockLoop (m + 25) []).run ⟨funToks 0, 4⟩
      = .ok [] ⟨funToks 0, 4⟩ := by
    show (Parser.blockLoop ((m + 24) + 1) []).run _ = _
    generalize m + 24 = F
    simp [Parser.blockLoop, run_bind, run_pure, hanyrb]
  have hblock : (Parser.blockStatementList (m + 26)).run ⟨funToks 0, 4⟩
      = .ok [] ⟨funToks 0, 5⟩ := by
    show (Parser.blockStatementList ((m + 25) + 1)).run _ = _
    generalize hg : m + 25 = F at hblockLoop ⊢
    simp [Parser.blockStatementList, run_bind, run_pure, hblockLoop, hconsrb]
  show (Parser.functionDeclaration ((m + 26) + 1) .free).run _ = _
  generalize hg : m + 26 = F at hblock ⊢
  simp [Parser.functionDeclaration, run_bind, run_pure, hcons1, hcons2,
    hanyrp, hconsrp, hconslb, hblock]

-- a function declaration with n >= 1 parameters: ok within the limit, the
-- TooManyFuncArg parser error beyond it
set_option maxHeartbeats 1000000 in
theorem run_functionDeclaration_funToks (n m : Nat) (hn : 1 ≤ n) :
    (Parser.functionDeclaration (n + m + 27) .free).run ⟨funToks n, 0⟩
      = if n ≤ 255 then
          .ok (.function fIdentTok (List.replicate n paramTok) [])
            ⟨funToks n, 2 * n + 4⟩
        else .error .tooManyFuncArg ⟨funToks n, 512⟩ := by
  obtain ⟨hp0, hprp, hplb, hprb, hpeof⟩ := paramTail_facts n hn
  have h0 : (funToks n)[0]? = some fIdentTok := by simp [funToks]
  have h1 : (funToks n)[1]? = some lparenTok := by simp [funToks]
  have h2 : (funToks n)[2]? = some paramTok := (funToks_at n 0).trans hp0
  have hrp' : (funToks n)[2 * n + 1]? = some rparenTok := by
    have h := funToks_at n (2 * n - 1)
    rw [show 2 + (2 * n - 1) = 2 * n + 1 from by omega] at h
    exact h.trans hprp
  have hlb' : (funToks n)[2 * n + 2]? = some lbraceTok := by
    have h := funToks_at n (2 * n)
    rw [show 2 + 2 * n = 2 * n + 2 from by omega] at h
    exact h.trans hplb
  have hrb' : (funToks n)[2 * n + 3]? = some rbraceTok := by
    have h := funToks_at n (2 * n + 1)
    rw [show 2 + (2 * n + 1) = 2 * n + 3 from by omega] at h
    exact h.trans hprb
  have hcons1 : (Parser.consume .ident
        "Expected identifier as function name").run ⟨funToks n, 0⟩
      = .ok fIdentTok ⟨funToks n, 1⟩ :=
    run_consume _ _ _ fIdentTok h0 (by simp [fIdentTok]) rfl
  have hcons2 : (Parser.consume (.singleChar .leftParen)
        "Expect '(' after `fun` identifier").run ⟨funToks n, 1⟩
      = .ok lparenTok ⟨funToks n, 2⟩ :=
    run_consume _ _ _ lparenTok h1 (by simp [lparenTok]) rfl
  have hanyrp : (Parser.any [.singleChar .rightParen]).run ⟨funToks n, 2⟩
      = .ok false ⟨funToks n, 2⟩ :=
    run_any_no_match _ _ paramTok h2 (by simp [paramTok]) (by simp [paramTok])
  have hloop : (Parser.fdParamsLoop (n + m + 26) []).run ⟨funToks n, 2⟩
      = if n ≤ 255 then
          .ok (List.replicate n paramTok) ⟨funToks n, 2 + (2 * n - 1)⟩
        else .error .tooManyFuncArg ⟨funToks n, 512⟩ := by
    have h := fdParamsLoop_run n (m + 25) [] [fIdentTok, lparenTok] hn (by simp)
    rw [show n + (m + 25) + 1 = n + m + 26 from by omega] at h
    simpa [funToks] using h
  by_cases h255 : n ≤ 255
  · rw [if_pos h255]
    rw [if_pos h255] at hloop
    have hconsrp : (Parser.consume (.singleChar .rightParen)
          "Expect ')' after expression").run ⟨funToks n, 2 + (2 * n - 1)⟩
        = .ok rparenTok ⟨funToks n, 2 * n + 2⟩ := by
      have h := run_consume (.singleChar .rightParen)
        "Expect ')' after expression" ⟨funToks n, 2 * n + 1⟩ rparenTok hrp'
        (by simp [rparenTok]) rfl
      rw [show (2 : Nat) + (2 * n - 1) = 2 * n + 1 from by omega]
      exact h
    have hconslb : (Parser.consume (.singleChar .leftBrace)
          "Expect '\x7b' after `fun` to define it's body").run
          ⟨funToks n, 2 * n + 2⟩
        = .ok lbraceTok ⟨funToks n, 2 * n + 3⟩ :=
      run_consume _ _ _ lbraceTok hlb' (by simp [lbraceTok]) rfl
    have hanyrb : (Parser.any [.singleChar .rightBrace]).run
        ⟨funToks n, 2 * n + 3⟩
        = .ok true ⟨funToks n, 2 * n + 3⟩ :=
      run_any_match _ [] _ rbraceTok hrb' (by simp [rbraceTok]) rfl
    have hconsrb : (Parser.consume (.singleChar .rightBrace)
          "Expect '\x7d' to close the block scope").run ⟨funToks n, 2 * n + 3⟩
        = .ok rbraceTok ⟨funToks n, 2 * n + 4⟩ :=
      run_consume _ _ _ rbraceTok hrb' (by simp [rbraceTok]) rfl
    have hblockLoop : (Parser.blockLoop (n + m + 25) []).run
        ⟨funToks n, 2 * n + 3⟩
        = .ok [] ⟨funToks n, 2 * n + 3⟩ := by
      show (Parser.blockLoop ((n + m + 24) + 1) []).run _ = _
      generalize n + m + 24 = F
      simp [Parser.blockLoop, run_bind, run_pure, hanyrb]
    have hblock : (Parser.blockStatementList (n + m + 26)).run
        ⟨funToks n, 2 * n + 3⟩
        = .ok [] ⟨funToks n, 2 * n + 4⟩ := by
      show (Parser.blockStatementList ((n + m + 25) + 1)).run _ = _
      generalize hg : n + m + 25 = F at hblockLoop ⊢
      simp [Parser.blockStatementList, run_bind, run_pure, hblockLoop, hconsrb]
    show (Parser.functionDeclaration ((n + m + 26) + 1) .free).run _ = _
    generalize hg : n + m + 26 = F at hloop hblock ⊢
    simp [Parser.functionDeclaration, run_bind, run_pure, hcons1, hcons2,
      hanyrp, hloop, hconsrp, hconslb, hblock]
  · rw [if_neg h255]
    rw [if_neg h255] at hloop
    show (Parser.functionDeclaration ((n + m + 26) + 1) .free).run _ = _
    generalize hg : n + m + 26 = F at hloop ⊢
    simp [Parser.functionDeclaration, run_bind, run_pure, hcons1, hcons2,
      hanyrp, hloop]

/-! Comparison semantics of the derived PartialOrd on numbers. -/

theorem ltB_number (x y : ℚ) :
    (MalisObject.number x).ltB (.number y) = decide (x < y) := by
  simp only [MalisObject.ltB, MalisObject.partialCmp, cmpRat]
  by_cases h1 : x < y
  · simp [h1]
  · by_cases h2 : x = y <;> simp [h1, h2]

theorem leB_number (x y : ℚ) :
    (MalisObject.number x).leB (.number y) = decide (x ≤ y) := by
  simp only [MalisObject.leB, MalisObject.partialCmp, cmpRat]
  by_cases h1 : x < y
  · simp [h1, le_of_lt h1]
  · by_cases h2 : x = y <;> simp [h1, h2]
    exact lt_of_le_of_ne (le_of_not_lt h1) (Ne.symm h2)

theorem gtB_number (x y : ℚ) :
    (MalisObject.number x).gtB (.number y) = decide (y < x) := by
  simp only [MalisObject.gtB, MalisObject.partialCmp, cmpRat]
  by_cases h1 : x < y
  · simp [h1, asymm h1, not_lt_of_lt h1]
  · by_cases h2 : x = y <;> simp [h1, h2]
    exact lt_of_le_of_ne (le_of_not_lt h1) (Ne.symm h2)

theorem geB_number (x y : ℚ) :
    (MalisObject.number x).geB (.number y) = decide (y ≤ x) := by
  simp only [MalisObject.geB, MalisObject.partialCmp, cmpRat]
  by_cases h1 : x < y
  · simp [h1, not_le_of_lt h1]
  · by_cases h2 : x = y <;> simp [h1, h2]
    exact le_of_not_lt h1

/-! The claims. -/

/-- C1: the spec says print 1 + 2 * 3; lexes the star to a Star token, the
parser binds it tighter than plus and the pipeline prints 7. In the source
the star arm of Scanner::scan_token builds SingleChar::SemiColon
(src/scanner.rs lines 129-132), so no Star token is produced for this
input — the star acts as a statement terminator — and because scan_tokens
appends no Eof token Parser::parse then fails with InvalidIdx past the
last token, so nothing is evaluated at all. -/
theorem C1_star_scans_as_semicolon :
    scanTokens "print 1 + 2 * 3;" = .ok c1Tokens
    ∧ c1Tokens[4]? =
        some { t_type := .singleChar .semiColon, lexeme := "*", line := 1 }
    ∧ (∀ t ∈ c1Tokens, t.t_type ≠ .singleChar .star)
    ∧ (Parser.parse 100).run ⟨c1Tokens, 0⟩
        = .error (.invalidIdx 7) ⟨c1Tokens, 7⟩ :=
  ⟨rfl, rfl, by decide, rfl⟩

set_option maxHeartbeats 4000000 in
/-- C2: the claimed invariant — distance d recorded for a use site means
walking d parent links from the environment current at the use reaches an
environment whose own bindings hold the name — fails on
var x = 1; \x7b print x; \x7d. Resolver::visit_variable inserts the name
into the innermost scope before resolving, so the use of x is recorded
with distance 0; at evaluation time the environment current at the read is
the block child, whose own bindings are empty (walking 0 links finds no
x); the lookup only succeeds because Environment::get_at falls back to
Environment::get, which searches the whole parent chain. -/
theorem C2_distance_zero_env_lacks_binding :
    resolvedLocals (Resolver.resolveProgram 100 c2Program) = [(.token 7, 0)]
    ∧ runTrace c2Program = [("x", c2ReadEnv)]
    ∧ c2ReadEnv.values.lookup "x" = none
    ∧ c2ReadEnv.getAt 0 "x" = .ok (.number 1) :=
  ⟨rfl, rfl, rfl, rfl⟩

set_option maxHeartbeats 8000000 in
/-- C3: the spec expects both calls of showA to print global. In the
source the resolver (which Malis::run never invokes) panics on this
program — the block-local a is reported unused because the use inside
showA was booked into the function scope — and the interpreter that
actually runs executes a function body against the environment current at
the call, so the second call sees the shadowing a and prints block. -/
theorem C3_second_call_prints_block :
    resolvedError (Resolver.resolveProgram 100 c3Program)
      = some (.panicUnusedVariable "a")
    ∧ runOutput c3Program = [.stringValue "global", .stringValue "block"] := by
  constructor
  · simp [resolvedError, Resolver.resolveProgram, Resolver.resolveTop,
      Resolver.resolveStmts, Resolver.resolveStmt, Resolver.resolveExpr,
      Resolver.resolveFunction, Resolver.resolveMethods, Resolver.resolveArgs,
      Resolver.visitVariable, Resolver.declare, Resolver.define,
      Resolver.beginScope, Resolver.endScope, Resolver.resolveLocal,
      Resolver.declareParams, Resolver.upsertScope, initialRState, c3Program,
      aDecl0, showADecl, aUse, showAUse1, aDecl2, showAUse2, rparenTok,
      run_bind, run_pure, run_get, run_set, run_modify, run_throw, run_map]
  · have hrun : (Interp.interpret 100 c3Program).run initialIState
        = .ok ⟨⟩ ⟨c3E1, [.stringValue "global", .stringValue "block"],
            [("showA", c3B1), ("a", c3C1), ("showA", c3B2), ("a", c3C2)],
            0⟩ := rfl
    simp only [runOutput, hrun]

/-- C4: the environment pushed on block entry is not restored on the error
exit path: executing \x7b 1 + nil; \x7d from the initial state raises the
addition type error and leaves the block child environment — not the
pre-entry environment — as the interpreter's current environment, because
the statement loop of Interpreter::execute_block propagates the error
before the restoration code runs. -/
theorem C4_block_env_not_restored_on_error :
    (Interp.execute 100 c4Block).run initialIState
      = .error (.addition (.number 1) .nil)
          { initialIState with environment := Env.mk [] (some initialEnv) }
    ∧ Env.mk [] (some initialEnv) ≠ initialEnv :=
  ⟨rfl, by simp [initialEnv, globalsEnv]⟩

/-- C5: Scanner::scan_tokens accumulates lexical errors but line 81
returns Ok(token_list) unconditionally: on the input @ the error list
holds the unexpected-character error yet the scanner still returns Ok with
an empty token list, and in fact every input whatsoever produces Ok, so
the error list never reaches the caller. -/
theorem C5_scan_errors_discarded :
    (scanTokensFull "@").2 = [.unexpectedCharacter '@']
    ∧ scanTokens "@" = .ok []
    ∧ ∀ input : String, ∃ tokens, scanTokens input = .ok tokens :=
  ⟨rfl, rfl, fun _ => ⟨_, rfl⟩⟩

/-- C6 (amended): evaluating a comparison never raises a runtime error —
the derived PartialOrd compares every pair of operands, whatever their
variants, so each of the four operators yields Ok of some Boolean on
every pair of literal operands; when both operands are numbers the result
is the Boolean of the numeric ordering. -/
theorem C6_comparisons_total_and_numeric :
    (∀ (l r : LiteralType) (f : Nat) (st : IState), ∃ b : Bool,
      (Interp.evaluate (f + 2)
        (.binary (.literal l) lessTok (.literal r))).run st
        = .ok (.boolean b) st)
    ∧ (∀ (l r : LiteralType) (f : Nat) (st : IState), ∃ b : Bool,
      (Interp.evaluate (f + 2)
        (.binary (.literal l) lessEqualTok (.literal r))).run st
        = .ok (.boolean b) st)
    ∧ (∀ (l r : LiteralType) (f : Nat) (st : IState), ∃ b : Bool,
      (Interp.evaluate (f + 2)
        (.binary (.literal l) greaterTok (.literal r))).run st
        = .ok (.boolean b) st)
    ∧ (∀ (l r : LiteralType) (f : Nat) (st : IState), ∃ b : Bool,
      (Interp.evaluate (f + 2)
        (.binary (.literal l) greaterEqualTok (.literal r))).run st
        = .ok (.boolean b) st)
    ∧ (∀ (x y : ℚ) (f : Nat) (st : IState),
      (Interp.evaluate (f + 2) (.binary (.literal (.number x)) lessTok
        (.literal (.number y)))).run st
        = .ok (.boolean (decide (x < y))) st)
    ∧ (∀ (x y : ℚ) (f : Nat) (st : IState),
      (Interp.evaluate (f + 2) (.binary (.literal (.number x)) lessEqualTok
        (.literal (.number y)))).run st
        = .ok (.boolean (decide (x ≤ y))) st)
    ∧ (∀ (x y : ℚ) (f : Nat) (st : IState),
      (Interp.evaluate (f + 2) (.binary (.literal (.number x)) greaterTok
        (.literal (.number y)))).run st
        = .ok (.boolean (decide (y < x))) st)
    ∧ (∀ (x y : ℚ) (f : Nat) (st : IState),
      (Interp.evaluate (f + 2) (.binary (.literal (.number x)) greaterEqualTok
        (.literal (.number y)))).run st
        = .ok (.boolean (decide (y ≤ x))) st) := by
  refine ⟨?_, ?_, ?_, ?_, ?_, ?_, ?_, ?_⟩
  · intro l r f st; cases l <;> cases r <;> exact ⟨_, rfl⟩
  · intro l r f st; cases l <;> cases r <;> exact ⟨_, rfl⟩
  · intro l r f st; cases l <;> cases r <;> exact ⟨_, rfl⟩
  · intro l r f st; cases l <;> cases r <;> exact ⟨_, rfl⟩
  · intro x y f st
    have h : (Interp.evaluate (f + 2) (.binary (.literal (.number x)) lessTok
        (.literal (.number y)))).run st
        = .ok (.boolean ((MalisObject.number x).ltB (.number y))) st := rfl
    rw [ltB_number] at h
    exact h
  · intro x y f st
    have h : (Interp.evaluate (f + 2) (.binary (.literal (.number x))
        lessEqualTok (.literal (.number y)))).run st
        = .ok (.boolean ((MalisObject.number x).leB (.number y))) st := rfl
    rw [leB_number] at h
    exact h
  · intro x y f st
    have h : (Interp.evaluate (f + 2) (.binary (.literal (.number x))
        greaterTok (.literal (.number y)))).run st
        = .ok (.boolean ((MalisObject.number x).gtB (.number y))) st := rfl
    rw [gtB_number] at h
    exact h
  · intro x y f st
    have h : (Interp.evaluate (f + 2) (.binary (.literal (.number x))
        greaterEqualTok (.literal (.number y)))).run st
        = .ok (.boolean ((MalisObject.number x).geB (.number y))) st := rfl
    rw [geB_number] at h
    exact h

/-- C6 (counterexample): comparing the number 1 with nil — an operand that
is not a Number — does not raise a runtime error: the derived PartialOrd
orders variants by declaration order, Number before Nil, so 1 < nil
evaluates to Ok(Boolean true). -/
theorem C6_mixed_comparison_no_error :
    (Interp.evaluate 10 (.binary (.literal (.number 1)) lessTok
      (.literal .litNil))).run initialIState
      = .ok (.boolean true) initialIState := rfl

/-- C7 (amended): the chained ternary v1 ? v2 : v3 ? v4 : v5 parses
left-associatively — the while loop of Parser::ternary folds each further
question mark around the accumulated expression, producing
Ternary(Ternary(v1, v2, v3), v4, v5). -/
theorem C7_ternary_left_associative (v1 v2 v3 v4 v5 : ℚ) :
    (Parser.separator 50).run ⟨ternaryChainToks v1 v2 v3 v4 v5, 0⟩
      = .ok (.ternary
          (.ternary (.literal (.number v1)) qTok (.literal (.number v2)) cTok
            (.literal (.number v3)))
          qTok (.literal (.number v4)) cTok (.literal (.number v5)))
        ⟨ternaryChainToks v1 v2 v3 v4 v5, 9⟩ := rfl

/-- C7 (counterexample): for 1 ? 2 : 3 ? 4 : 5 the parser produces the
left grouping, which differs from the right grouping
Ternary(1, 2, Ternary(3, 4, 5)) the claim asserts. -/
theorem C7_not_right_associative :
    (Parser.separator 50).run ⟨ternaryChainToks 1 2 3 4 5, 0⟩
      = .ok c7LeftAst ⟨ternaryChainToks 1 2 3 4 5, 9⟩
    ∧ c7LeftAst ≠ .ternary (.literal (.number 1)) qTok (.literal (.number 2))
        cTok (.ternary (.literal (.number 3)) qTok (.literal (.number 4)) cTok
          (.literal (.number 5))) :=
  ⟨rfl, by simp [c7LeftAst]⟩

/-- C8: over the canonical one-literal-argument call f(1, ..., 1) and the
declaration family f(p, ..., p) \x7b \x7d, a count of at most 255
arguments or parameters parses to the Call, respectively Function, node
with that many entries, and any count beyond 255 is rejected with the
TooManyFuncArg parse error. -/
theorem C8_function_arg_limit (n m : Nat) :
    (n ≤ 255 →
      (∃ p' : PState, (Parser.separator (n + m + 27)).run ⟨callToks n, 0⟩
          = .ok (.call (.var fIdentTok) rparenTok
              (List.replicate n (.literal (.number 1)))) p')
      ∧ ∃ p' : PState,
          (Parser.functionDeclaration (n + m + 27) .free).run ⟨funToks n, 0⟩
          = .ok (.function fIdentTok (List.replicate n paramTok) []) p')
    ∧ (255 < n →
      (Parser.separator (n + m + 27)).run ⟨callToks n, 0⟩
        = .error .tooManyFuncArg ⟨callToks n, 512⟩
      ∧ (Parser.functionDeclaration (n + m + 27) .free).run ⟨funToks n, 0⟩
        = .error .tooManyFuncArg ⟨funToks n, 512⟩) := by
  constructor
  · intro h255
    constructor
    · cases n with
      | zero =>
          refine ⟨⟨callToks 0, 3⟩, ?_⟩
          have hun : (Parser.any [.singleChar .bang, .singleChar .minus]).run
              ⟨callToks 0, 0⟩ = .ok false ⟨callToks 0, 0⟩ :=
            run_any_no_match _ _ fIdentTok rfl (by simp [fIdentTok])
              (by simp [fIdentTok])
          have hsep := run_sep_from_call (m + 14) ⟨callToks 0, 0⟩
            ⟨callToks 0, 3⟩ _ (run_call_callToks0 m) hun rfl
          simp only [Nat.zero_add]
          exact hsep
      | succ k =>
          refine ⟨⟨callToks (k + 1), 2 * (k + 1) + 2⟩, ?_⟩
          have hn : 1 ≤ k + 1 := by omega
          obtain ⟨-, -, heof⟩ := argTail_facts (k + 1) hn
          have heof' : (callToks (k + 1))[2 * (k + 1) + 2]? = some eofTok := by
            have h := callToks_at (k + 1) (2 * (k + 1))
            rw [show 2 + 2 * (k + 1) = 2 * (k + 1) + 2 from by omega] at h
            exact h.trans heof
          have hun : (Parser.any [.singleChar .bang, .singleChar .minus]).run
              ⟨callToks (k + 1), 0⟩ = .ok false ⟨callToks (k + 1), 0⟩ :=
            run_any_no_match _ _ fIdentTok (by simp [callToks])
              (by simp [fIdentTok]) (by simp [fIdentTok])
          have hcall := run_call_callToks (k + 1) m hn
          rw [if_pos h255] at hcall
          exact run_sep_from_call ((k + 1) + m + 14) _ _ _ hcall hun heof'
    · cases n with
      | zero =>
          refine ⟨⟨funToks 0, 5⟩, ?_⟩
          simp only [Nat.zero_add]
          exact run_functionDeclaration_funToks0 m
      | succ k =>
          have hfd := run_functionDeclaration_funToks (k + 1) m (by omega)
          rw [if_pos h255] at hfd
          exact ⟨⟨funToks (k + 1), 2 * (k + 1) + 4⟩, hfd⟩
  · intro h255
    have hn : 1 ≤ n := by omega
    constructor
    · have hcall := run_call_callToks n m hn
      rw [if_neg (by omega)] at hcall
      have hun : (Parser.any [.singleChar .bang, .singleChar .minus]).run
          ⟨callToks n, 0⟩ = .ok false ⟨callToks n, 0⟩ :=
        run_any_no_match _ _ fIdentTok (by simp [callToks])
          (by simp [fIdentTok]) (by simp [fIdentTok])
      exact run_sep_from_call_err (n + m + 14) _ _ _ hcall hun
    · have hfd := run_functionDeclaration_funToks n m hn
      rw [if_neg (by omega)] at hfd
      exact hfd

/-- C8 (witness): the limit theorem at the concrete counts 3 and 256 with
zero extra fuel. -/
theorem C8_function_arg_limit_witness :
    ((∃ p' : PState, (Parser.separator (3 + 0 + 27)).run ⟨callToks 3, 0⟩
        = .ok (.call (.var fIdentTok) rparenTok
            (List.replicate 3 (.literal (.number 1)))) p')
      ∧ ∃ p' : PState,
          (Parser.functionDeclaration (3 + 0 + 27) .free).run ⟨funToks 3, 0⟩
          = .ok (.function fIdentTok (List.replicate 3 paramTok) []) p')
    ∧ ((Parser.separator (256 + 0 + 27)).run ⟨callToks 256, 0⟩
        = .error .tooManyFuncArg ⟨callToks 256, 512⟩
      ∧ (Parser.functionDeclaration (256 + 0 + 27) .free).run
          ⟨funToks 256, 0⟩
        = .error .tooManyFuncArg ⟨funToks 256, 512⟩) :=
  ⟨(C8_function_arg_limit 3 0).1 (by decide),
   (C8_function_arg_limit 256 0).2 (by decide)⟩

/-- C9 (amended): the process exit code distinguishes only runtime errors
from everything else: success exits 0, a runtime error exits 70, and every
static error — scanner, parser or ast — falls through the catch-all arm of
main and also exits 0, the success code; no 65 or 74 exit exists. -/
theorem C9_exit_codes :
    mainExitCode (.ok ()) = 0
    ∧ (∀ e : RuntimeError, mainExitCode (.error (.runtimeError e)) = 70)
    ∧ (∀ e : ScannerError, mainExitCode (.error (.scannerError e)) = 0)
    ∧ (∀ e : ParserError, mainExitCode (.error (.parserError e)) = 0)
    ∧ (∀ e : AstError, mainExitCode (.error (.astError e)) = 0)
    ∧ (70 : Nat) ≠ 0 :=
  ⟨rfl, fun _ => rfl, fun _ => rfl, fun _ => rfl, fun _ => rfl, by decide⟩

/-- C9 (counterexample): a parse error exits with the same code as
success, so the static-failure exit code is not distinct from the success
exit code and is not 65. -/
theorem C9_static_error_exits_zero :
    mainExitCode (.error (.parserError .tooManyFuncArg)) = 0
    ∧ mainExitCode (.ok ()) = 0
    ∧ mainExitCode (.error (.parserError .tooManyFuncArg)) ≠ 65 :=
  ⟨rfl, rfl, by decide⟩

/-- C10: a variable read whose environment lookup yields Nil raises the
VariableNotInitialized runtime error (recording the read in the trace),
and a read yielding any non-Nil value returns that value. -/
theorem C10_nil_variable_read_errors (st : IState) (tok : Token) :
    (st.environment.get tok.lexeme = .ok .nil →
      (Interp.visitVariable tok).run st
        = .error (.variableNotInitialized tok)
            { st with readTrace :=
                st.readTrace ++ [(tok.lexeme, st.environment)] })
    ∧ (∀ v : MalisObject, v ≠ .nil →
      st.environment.get tok.lexeme = .ok v →
      (Interp.visitVariable tok).run st
        = .ok v { st with readTrace :=
            st.readTrace ++ [(tok.lexeme, st.environment)] }) := by
  constructor
  · intro h
    simp only [Interp.visitVariable, run_bind, run_get, run_set, run_throw,
      run_pure, h]
  · intro v hv h
    cases v <;>
      simp only [Interp.visitVariable, run_bind, run_get, run_set, run_throw,
        run_pure, h] <;>
      simp_all

/-- C10 (witness): reading x bound to Nil errors, reading x bound to 1
succeeds, from the concrete states built over the initial environment. -/
theorem C10_nil_variable_read_errors_witness :
    (Interp.visitVariable xUse).run c10NilState
      = .error (.variableNotInitialized xUse)
          { c10NilState with readTrace :=
              c10NilState.readTrace ++ [(xUse.lexeme, c10NilState.environment)] }
    ∧ (Interp.visitVariable xUse).run c10NumState
      = .ok (.number 1)
          { c10NumState with readTrace :=
              c10NumState.readTrace ++
                [(xUse.lexeme, c10NumState.environment)] } :=
  ⟨(C10_nil_variable_read_errors c10NilState xUse).1 rfl,
   (C10_nil_variable_read_errors c10NumState xUse).2 (.number 1)
     (by simp) rfl⟩

end Malis
